import Mathlib

/-! Optimizer transport resolution (`transports/transports.go`)

A shallow embedding of the configuration-time resolver of package `transports`:
`Transports`, `ParseArgsShadow`, `ParseArgsReplicantClient`,
`ParseArgsStarbridgeClient`, `ParseArgsOptimizer`, `parseStrategy`,
`parseTransports` and `parsedTransport`.

Modelling conventions.

* A JSON text is represented by the tree it denotes (`JSON`); `JSONText`
  adds the empty string and texts that `json.Unmarshal` rejects.  An object
  keeps its members in document order, duplicates included.
* A Go `map[string]interface{}` is an association list with distinct keys in
  increasing key order, which is the order `json.Marshal` writes them in.
  `asMap` builds it from the members of an object (the last duplicate wins, as
  in `json.Unmarshal`).  Marshalling a decoded tree never fails and unmarshalling
  the marshalled text gives the tree back, so `jsonMarshal` of a map is the
  document holding that map.
* `json.Unmarshal` into a struct matches a key to a field exactly or under
  case folding, processes members in order, ignores `null` for a string field,
  and reports a type mismatch after the whole object has been read.
* The Shadow, Replicant, Starbridge and Optimizer libraries are outside this
  repository: their decoders are the fields of `Providers`, and their
  constructors (`shadow.NewTransport`, `Optimizer.NewFirstStrategy`, ...) build
  records of their arguments.
* A Go result pair `(value, error)` is an `Except GoError`: every error return
  of the source has the form `return nil, errors.New(...)`.
* `ParseArgsOptimizer`, `parseTransports` and `parsedTransport` are mutually
  recursive.  Their bodies are written once with the recursive call as a
  parameter (`...With`), iterated by `ParseArgsOptimizerFuel`, and closed with
  more budget than the nesting depth of the document.  Running out of budget is
  the separate outcome `GoError.fuelExhausted`, which is shown never to occur.
* `json.Unmarshal` refuses a text whose arrays and objects nest deeper than
  `maxNestingDepth`; the decoders below refuse a document of that depth.  The
  texts re-serialised from an accepted configuration are no deeper than it.  A
  `JSON.num` stands for a number that decoded into a `float64`; a text holding
  a number outside that range is `JSONText.malformed`.
* The diagnostic `println` in `ParseArgsOptimizer` is not modelled.
* `exampleProviders` is a sample instance of the external libraries, used to
  run the resolver on concrete documents.
-/

namespace transports

/-! ## Decoded JSON -/

/-- A JSON value as `encoding/json` decodes it into `interface{}`.  The payload
of a number is never inspected by the resolver; an integer stands for it. -/
inductive JSON where
  | null
  | bool (b : Bool)
  | num (n : Int)
  | str (s : String)
  | arr (xs : List JSON)
  | obj (members : List (String × JSON))

/-- The `string` argument of the `ParseArgs...` functions, seen through
`json.Unmarshal`: the empty string, a text that is not a JSON document, or a
document. -/
inductive JSONText where
  | empty
  | malformed
  | doc (j : JSON)

mutual
/-- Nesting depth of a decoded value: scalars have depth `0`. -/
def JSON.depth : JSON → Nat
  | .arr xs => depthList xs + 1
  | .obj members => depthMembers members + 1
  | _ => 0
/-- Largest depth among the elements of an array. -/
def depthList : List JSON → Nat
  | [] => 0
  | x :: xs => max x.depth (depthList xs)
/-- Largest depth among the member values of an object. -/
def depthMembers : List (String × JSON) → Nat
  | [] => 0
  | (_, v) :: members => max v.depth (depthMembers members)
end

/-- Nesting depth of the document a text holds. -/
def JSONText.depth : JSONText → Nat
  | .doc j => j.depth
  | _ => 0

/-- Go: `maxNestingDepth` of `encoding/json`.  The validity scan that opens
`json.Unmarshal` keeps one parse state per open array or object and fails with
`exceeded max depth` once there are more than this many. -/
def maxNestingDepth : Nat := 10000

/-! ## `encoding/json`: field matching and maps -/

/-- Case folding of one rune as `encoding/json` applies it to object keys.  The
only runes that fold to an ASCII letter are the ASCII letters, U+017F (long s)
and U+212A (Kelvin sign); all field names below are ASCII, so the folding of
other runes does not affect a match. -/
def foldRune (c : Char) : Char :=
  if 'a' ≤ c ∧ c ≤ 'z' then Char.ofNat (c.toNat - 32)
  else if c = Char.ofNat 0x017F then 'S'
  else if c = Char.ofNat 0x212A then 'K'
  else c

/-- Folded form of a key. -/
def foldName (s : String) : List Char := s.toList.map foldRune

/-- Whether object key `key` selects the struct field with JSON name `field`:
an exact match, or else a match under case folding. -/
def fieldMatches (field key : String) : Bool :=
  key == field || foldName key == foldName field

/-- Strict lexicographic order on rune sequences (the byte order of their UTF-8
encodings). -/
def runesLess : List Char → List Char → Bool
  | [], [] => false
  | [], _ :: _ => true
  | _ :: _, [] => false
  | a :: as, b :: bs =>
    if a.toNat < b.toNat then true
    else if a.toNat = b.toNat then runesLess as bs
    else false

/-- Key order used by `json.Marshal` for the keys of a map. -/
def keyLess (a b : String) : Bool := runesLess a.toList b.toList

/-- Map assignment `m[k] = v` on a key-ordered association list. -/
def mapInsert (k : String) (v : JSON) : List (String × JSON) → List (String × JSON)
  | [] => [(k, v)]
  | (k', v') :: rest =>
    if keyLess k k' then (k, v) :: (k', v') :: rest
    else if k = k' then (k, v) :: rest
    else (k', v') :: mapInsert k v rest

/-- The Go map an object decodes to: members are assigned in document order. -/
def asMap (members : List (String × JSON)) : List (String × JSON) :=
  members.foldl (fun m kv => mapInsert kv.1 kv.2 m) []

/-- Map index `m[k]` with its presence flag. -/
def mapLookup (k : String) : List (String × JSON) → Option JSON
  | [] => none
  | (k', v) :: rest => if k' = k then some v else mapLookup k rest

/-- Result of `json.Marshal` on a map: the document whose members are the
entries of the map in key order. -/
def jsonMarshal (m : List (String × JSON)) : JSONText := .doc (.obj m)

/-! ## Errors -/

/-- A Go `error` value made by `errors.New`, or the exhaustion of the recursion
budget of the model. -/
inductive GoError where
  | New (text : String)
  | fuelExhausted
  deriving DecidableEq, Repr

/-- A Go result pair `(value, error)`. -/
abbrev Result (α : Type) := Except GoError α

/-! ## Registry -/

/-- Go: `Transports` returns the list of registered transport protocols. -/
def Transports : List String := ["shadow", "Replicant", "Starbridge", "Optimizer"]

/-! ## Provider libraries -/

/-- The fields of `shadow.ClientConfig` that the source reads. -/
structure ShadowClientConfig where
  Password : String
  CipherName : String
  Address : String

/-- The value `shadow.NewTransport(password, cipherName, address)` returns. -/
structure ShadowTransport where
  password : String
  cipherName : String
  address : String

/-- Constructor of the Shadow library. -/
def shadow.NewTransport (password cipherName address : String) : ShadowTransport :=
  ⟨password, cipherName, address⟩

/-- Go: `replicant.TransportClient{Config, Address, Dialer}`. -/
structure ReplicantTransportClient (D RC : Type) where
  Config : RC
  Address : String
  Dialer : D

/-- Go: `Starbridge.TransportClient{Config, Address, Dialer}`. -/
structure StarbridgeTransportClient (D SC : Type) where
  Config : SC
  Address : String
  Dialer : D

/-- Behaviour of the external libraries on which the resolver depends: the
result of `json.Unmarshal` into each library's configuration struct (`none` is
a decoding error), `replicant.DecodeClientConfig`, and the `Address` field of
the decoded Replicant and Starbridge configurations. -/
structure Providers (RC SC : Type) where
  unmarshalShadowClientConfig : JSON → Option ShadowClientConfig
  unmarshalReplicantClientJSONConfig : JSON → Option String
  DecodeClientConfig : String → Option RC
  replicantAddress : RC → String
  unmarshalStarbridgeClientConfig : JSON → Option SC
  starbridgeAddress : SC → String

/-- The five strategies of the Optimizer library. -/
inductive StrategyKind where
  | first
  | random
  | rotate
  | track
  | minimizeDialDuration
  deriving DecidableEq, Repr

/-- An `Optimizer.Strategy`: which constructor built it, over which dialers. -/
structure Strategy (T : Type) where
  kind : StrategyKind
  transports : List T

/-- The value `Optimizer.NewOptimizerClient(transports, strategy)` returns. -/
structure Client (T : Type) where
  Transports : List T
  Strategy : Strategy T

/-- An `Optimizer.TransportDialer`: the transport a provider constructor
returned. -/
inductive TransportDialer (D RC SC : Type) where
  | shadow (t : ShadowTransport)
  | replicant (t : ReplicantTransportClient D RC)
  | starbridge (t : StarbridgeTransportClient D SC)
  | optimizer (t : Client (TransportDialer D RC SC))

/-- Constructor of the Optimizer library. -/
def Optimizer.NewFirstStrategy {T : Type} (transports : List T) : Strategy T :=
  ⟨.first, transports⟩

/-- Constructor of the Optimizer library. -/
def Optimizer.NewRandomStrategy {T : Type} (transports : List T) : Strategy T :=
  ⟨.random, transports⟩

/-- Constructor of the Optimizer library. -/
def Optimizer.NewRotateStrategy {T : Type} (transports : List T) : Strategy T :=
  ⟨.rotate, transports⟩

/-- Constructor of the Optimizer library. -/
def Optimizer.NewTrackStrategy {T : Type} (transports : List T) : Strategy T :=
  ⟨.track, transports⟩

/-- Constructor of the Optimizer library. -/
def Optimizer.NewMinimizeDialDuration {T : Type} (transports : List T) : Strategy T :=
  ⟨.minimizeDialDuration, transports⟩

/-- Constructor of the Optimizer library. -/
def Optimizer.NewOptimizerClient {T : Type} (transports : List T) (strategy : Strategy T) :
    Client T :=
  ⟨transports, strategy⟩

/-! ## Struct decoding -/

/-- Go: `type OptimizerConfig struct { Transports []interface{}; Strategy string }`
with JSON names `transports` and `strategy`. -/
structure OptimizerConfig where
  Transports : List JSON
  Strategy : String

/-- Go: `type PartialOptimizerConfig struct { Name string }` with JSON name
`name`, local to `parsedTransport`. -/
structure PartialOptimizerConfig where
  Name : String

/-- One member of an object decoded into an `OptimizerConfig`.  The flag records
a saved type error.  An array replaces `Transports`, `null` resets it to nil;
a string replaces `Strategy`, `null` leaves it. -/
def OptimizerConfig.decodeMember (st : OptimizerConfig × Bool) (kv : String × JSON) :
    OptimizerConfig × Bool :=
  if fieldMatches "transports" kv.1 then
    match kv.2 with
    | .arr xs => (⟨xs, st.1.Strategy⟩, st.2)
    | .null => (⟨[], st.1.Strategy⟩, st.2)
    | _ => (st.1, true)
  else if fieldMatches "strategy" kv.1 then
    match kv.2 with
    | .str s => (⟨st.1.Transports, s⟩, st.2)
    | .null => st
    | _ => (st.1, true)
  else st

/-- Decoding of a scanned document into an `OptimizerConfig`: `null` leaves the
zero value, an object is decoded member by member, anything else is a type
error. -/
def OptimizerConfig.decode : JSON → Option OptimizerConfig
  | .null => some ⟨[], ""⟩
  | .obj members =>
    let st := members.foldl OptimizerConfig.decodeMember (⟨[], ""⟩, false)
    if st.2 then none else some st.1
  | _ => none

/-- Go: `json.Unmarshal(jsonByte, &config)` for `config : OptimizerConfig`;
`none` is a non-nil error.  The text is scanned first, which fails when it
nests deeper than `maxNestingDepth`, and then decoded. -/
def unmarshalOptimizerConfig : JSONText → Option OptimizerConfig
  | .doc j => if j.depth ≤ maxNestingDepth then OptimizerConfig.decode j else none
  | _ => none

/-- One member of an object decoded into a `PartialOptimizerConfig`. -/
def PartialOptimizerConfig.decodeMember (st : PartialOptimizerConfig × Bool)
    (kv : String × JSON) : PartialOptimizerConfig × Bool :=
  if fieldMatches "name" kv.1 then
    match kv.2 with
    | .str s => (⟨s⟩, st.2)
    | .null => st
    | _ => (st.1, true)
  else st

/-- Decoding of a scanned document into a `PartialOptimizerConfig`. -/
def PartialOptimizerConfig.decode : JSON → Option PartialOptimizerConfig
  | .null => some ⟨""⟩
  | .obj members =>
    let st := members.foldl PartialOptimizerConfig.decodeMember (⟨""⟩, false)
    if st.2 then none else some st.1
  | _ => none

/-- Go: `json.Unmarshal(jsonString, &PartialConfig)`; `none` is a non-nil
error.  The text is scanned first, which fails when it nests deeper than
`maxNestingDepth`, and then decoded. -/
def unmarshalPartialOptimizerConfig : JSONText → Option PartialOptimizerConfig
  | .doc j => if j.depth ≤ maxNestingDepth then PartialOptimizerConfig.decode j else none
  | _ => none

/-! ## Leaf provider constructors -/

/-- Go: `ParseArgsShadow(args string) (*shadow.Transport, error)`.  It takes no
dialer. -/
def ParseArgsShadow {RC SC : Type} (P : Providers RC SC) (args : JSONText) :
    Result ShadowTransport :=
  match args with
  | .doc j =>
    match P.unmarshalShadowClientConfig j with
    | none => .error (.New "shadow options json decoding error")
    | some config =>
      .ok (shadow.NewTransport config.Password config.CipherName config.Address)
  | _ => .error (.New "shadow options json decoding error")

/-- Go: `ParseArgsReplicantClient(args string, dialer proxy.Dialer)`. -/
def ParseArgsReplicantClient {D RC SC : Type} (P : Providers RC SC) (args : JSONText)
    (dialer : D) : Result (ReplicantTransportClient D RC) :=
  match args with
  | .empty => .error (.New "must specify transport options when using replicant")
  | .malformed => .error (.New "could not unmarshal Replicant args")
  | .doc j =>
    match P.unmarshalReplicantClientJSONConfig j with
    | none => .error (.New "could not unmarshal Replicant args")
    | some ReplicantConfig =>
      match P.DecodeClientConfig ReplicantConfig with
      | none => .error (.New "could not parse config")
      | some config =>
        .ok { Config := config, Address := P.replicantAddress config, Dialer := dialer }

/-- Go: `ParseArgsStarbridgeClient(args string, dialer proxy.Dialer)`. -/
def ParseArgsStarbridgeClient {D RC SC : Type} (P : Providers RC SC) (args : JSONText)
    (dialer : D) : Result (StarbridgeTransportClient D SC) :=
  match args with
  | .doc j =>
    match P.unmarshalStarbridgeClientConfig j with
    | none => .error (.New "starbridge options json decoding error")
    | some config =>
      .ok { Config := config, Address := P.starbridgeAddress config, Dialer := dialer }
  | _ => .error (.New "starbridge options json decoding error")

/-! ## The resolver -/

/-- Go: `parseStrategy(strategyString, transports)`. -/
def parseStrategy {T : Type} (strategyString : String) (transports : List T) :
    Result (Strategy T) :=
  if strategyString = "first" then .ok (Optimizer.NewFirstStrategy transports)
  else if strategyString = "random" then .ok (Optimizer.NewRandomStrategy transports)
  else if strategyString = "rotate" then .ok (Optimizer.NewRotateStrategy transports)
  else if strategyString = "track" then .ok (Optimizer.NewTrackStrategy transports)
  else if strategyString = "minimizeDialDuration" then
    .ok (Optimizer.NewMinimizeDialDuration transports)
  else .error (.New "invalid strategy")

/-- Body of `parsedTransport(otc, dialer)`, with `ParseArgsOptimizer` passed as
`recur`.  Checks run in source order: the name field is decoded, then `config`
must be present, then it must be an object, and only then the name selects a
provider.  The two `json.Marshal` calls cannot fail on decoded values, so their
error returns have no counterpart here.  An exhausted budget of `recur` is
passed on as such; every other error of `recur` is replaced as in the source. -/
def parsedTransportWith {D RC SC : Type} (P : Providers RC SC)
    (recur : JSONText → D → Result (Client (TransportDialer D RC SC)))
    (otc : List (String × JSON)) (dialer : D) : Result (TransportDialer D RC SC) :=
  let jsonString := jsonMarshal otc
  match unmarshalPartialOptimizerConfig jsonString with
  | none => .error (.New "error unmarshalling optimizer otc")
  | some PartialConfig =>
    match mapLookup "config" otc with
    | none => .error (.New "missing config in transport parser")
    | some (.obj cfgMembers) =>
      let config := asMap cfgMembers
      let jsonConfigString := jsonMarshal config
      if PartialConfig.Name = "shadow" then
        match ParseArgsShadow P jsonConfigString with
        | .error _ => .error (.New "could not parse shadow Args")
        | .ok shadowTransport => .ok (.shadow shadowTransport)
      else if PartialConfig.Name = "Replicant" then
        match ParseArgsReplicantClient P jsonConfigString dialer with
        | .error _ => .error (.New "could not parse replicant Args")
        | .ok replicantTransport => .ok (.replicant replicantTransport)
      else if PartialConfig.Name = "Starbridge" then
        match ParseArgsStarbridgeClient P jsonConfigString dialer with
        | .error _ => .error (.New "could not parse starbridge Args")
        | .ok starbridgeTransport => .ok (.starbridge starbridgeTransport)
      else if PartialConfig.Name = "Optimizer" then
        match recur jsonConfigString dialer with
        | .error .fuelExhausted => .error .fuelExhausted
        | .error (.New _) => .error (.New "could not parse Optimizer Args")
        | .ok optimizerTransport => .ok (.optimizer optimizerTransport)
      else .error (.New "unsupported transport name")
    | some _ => .error (.New "unsupported type for optimizer config option")

/-- Body of `parseTransports(otcs, dialer)`: the `range` loop over `otcs`, which
stores the dialer of entry `index` at `transports[index]` and returns at the
first entry that fails, written as a recursion over the entries.
`parseTransportsLoop` below is the same loop with its slice and index. -/
def parseTransportsWith {D RC SC : Type} (P : Providers RC SC)
    (recur : JSONText → D → Result (Client (TransportDialer D RC SC))) :
    List JSON → D → Result (List (TransportDialer D RC SC))
  | [], _ => .ok []
  | untypedOtc :: rest, dialer =>
    match untypedOtc with
    | .obj members =>
      match parsedTransportWith P recur (asMap members) dialer with
      | .error .fuelExhausted => .error .fuelExhausted
      | .error (.New _) => .error (.New "transport could not parse config")
      | .ok transport =>
        match parseTransportsWith P recur rest dialer with
        | .error e => .error e
        | .ok transports => .ok (transport :: transports)
    | _ => .error (.New "unsupported type for transport")

/-- The loop of `parseTransports` as the source writes it.  `transports` is the
slice made by `make([]Optimizer.TransportDialer, len(otcs))`, whose elements
start as nil (`none`); the dialer of the entry at `index` is stored at
`transports[index]`, and the slice is returned after the last entry. -/
def parseTransportsLoop {D RC SC : Type} (P : Providers RC SC)
    (recur : JSONText → D → Result (Client (TransportDialer D RC SC))) (dialer : D) :
    Nat → List JSON → List (Option (TransportDialer D RC SC)) →
      Result (List (Option (TransportDialer D RC SC)))
  | _, [], transports => .ok transports
  | index, untypedOtc :: rest, transports =>
    match untypedOtc with
    | .obj members =>
      match parsedTransportWith P recur (asMap members) dialer with
      | .error .fuelExhausted => .error .fuelExhausted
      | .error (.New _) => .error (.New "transport could not parse config")
      | .ok transport =>
        parseTransportsLoop P recur dialer (index + 1) rest (transports.set index (some transport))
    | _ => .error (.New "unsupported type for transport")

/-- Body of `ParseArgsOptimizer(jsonConfig, dialer)`. -/
def ParseArgsOptimizerWith {D RC SC : Type} (P : Providers RC SC)
    (recur : JSONText → D → Result (Client (TransportDialer D RC SC)))
    (jsonConfig : JSONText) (dialer : D) : Result (Client (TransportDialer D RC SC)) :=
  match unmarshalOptimizerConfig jsonConfig with
  | none => .error (.New "could not marshal optimizer config")
  | some config =>
    match parseTransportsWith P recur config.Transports dialer with
    | .error .fuelExhausted => .error .fuelExhausted
    | .error (.New _) => .error (.New "could not parse transports")
    | .ok transports =>
      match parseStrategy config.Strategy transports with
      | .error _ => .error (.New "could not parse strategy")
      | .ok strategy => .ok (Optimizer.NewOptimizerClient transports strategy)

/-- The recursion of `ParseArgsOptimizer` unrolled `fuel` times. -/
def ParseArgsOptimizerFuel {D RC SC : Type} (P : Providers RC SC) :
    Nat → JSONText → D → Result (Client (TransportDialer D RC SC))
  | 0, _, _ => .error .fuelExhausted
  | fuel + 1, jsonConfig, dialer =>
    ParseArgsOptimizerWith P (ParseArgsOptimizerFuel P fuel) jsonConfig dialer

/-- Go: `ParseArgsOptimizer(jsonConfig string, dialer proxy.Dialer)`. -/
def ParseArgsOptimizer {D RC SC : Type} (P : Providers RC SC) (jsonConfig : JSONText)
    (dialer : D) : Result (Client (TransportDialer D RC SC)) :=
  ParseArgsOptimizerFuel P (jsonConfig.depth + 1) jsonConfig dialer

/-- Go: `parsedTransport(otc map[string]interface{}, dialer proxy.Dialer)`. -/
def parsedTransport {D RC SC : Type} (P : Providers RC SC) (otc : List (String × JSON))
    (dialer : D) : Result (TransportDialer D RC SC) :=
  parsedTransportWith P (ParseArgsOptimizer P) otc dialer

/-- Go: `parseTransports(otcs []interface{}, dialer proxy.Dialer)`. -/
def parseTransports {D RC SC : Type} (P : Providers RC SC) (otcs : List JSON) (dialer : D) :
    Result (List (TransportDialer D RC SC)) :=
  parseTransportsWith P (ParseArgsOptimizer P) otcs dialer


/-! ## Transports inside a resolved client -/

mutual
/-- The leaf transports of a dialer: the dialer itself, or for a composite
client the leaf transports of everything in it, at every depth. -/
def TransportDialer.leaves {D RC SC : Type} :
    TransportDialer D RC SC → List (TransportDialer D RC SC)
  | .optimizer c => clientLeaves c
  | .shadow t => [.shadow t]
  | .replicant t => [.replicant t]
  | .starbridge t => [.starbridge t]
/-- Leaf transports of a client: those of its transport list and of the list
its strategy was built over. -/
def clientLeaves {D RC SC : Type} :
    Client (TransportDialer D RC SC) → List (TransportDialer D RC SC)
  | ⟨ts, s⟩ => listLeaves ts ++ strategyLeaves s
/-- Leaf transports of the dialers a strategy was built over. -/
def strategyLeaves {D RC SC : Type} :
    Strategy (TransportDialer D RC SC) → List (TransportDialer D RC SC)
  | ⟨_, ts⟩ => listLeaves ts
/-- Leaf transports of a list of dialers. -/
def listLeaves {D RC SC : Type} :
    List (TransportDialer D RC SC) → List (TransportDialer D RC SC)
  | [] => []
  | t :: ts => t.leaves ++ listLeaves ts
end

/-- The `Dialer` field of a transport value.  `shadow.Transport` is built from a
password, a cipher name and an address only, and `Optimizer.Client` from a
transport list and a strategy: neither holds a dialer. -/
def TransportDialer.dialerField {D RC SC : Type} : TransportDialer D RC SC → Option D
  | .shadow _ => none
  | .replicant t => some t.Dialer
  | .starbridge t => some t.Dialer
  | .optimizer _ => none

/-- What resolution with dialer `dialer` guarantees of a leaf transport: it is a
Shadow transport, or a Replicant or Starbridge transport holding `dialer`. -/
def LeafUses {D RC SC : Type} (dialer : D) (t : TransportDialer D RC SC) : Prop :=
  (∃ s, t = .shadow s) ∨ (∃ r, t = .replicant r ∧ r.Dialer = dialer) ∨
    (∃ s, t = .starbridge s ∧ s.Dialer = dialer)

/-! ## A sample instance of the provider libraries

Used to run the resolver on concrete documents.  Every configuration struct of
the instance has string fields only, decoded the way `encoding/json` decodes a
string field. -/

/-- One member of an object decoded into a struct whose only field of interest
is the string field `field`. -/
def decodeStringMember (field : String) (st : String × Bool) (kv : String × JSON) :
    String × Bool :=
  if fieldMatches field kv.1 then
    match kv.2 with
    | .str s => (s, st.2)
    | .null => st
    | _ => (st.1, true)
  else st

/-- Value of the string field `field` after `json.Unmarshal` of a document;
`none` is a non-nil error, which a document nested deeper than
`maxNestingDepth` gives as well. -/
def unmarshalStringField (field : String) (j : JSON) : Option String :=
  if j.depth ≤ maxNestingDepth then
    match j with
    | .null => some ""
    | .obj members =>
      let st := members.foldl (decodeStringMember field) ("", false)
      if st.2 then none else some st.1
    | _ => none
  else none

/-- Sample libraries: a Shadow configuration with fields `password`,
`cipherName`, `address`; a Replicant configuration whose `config` string must be
non-empty to decode; a Starbridge configuration with field `address`. -/
def exampleProviders : Providers String String where
  unmarshalShadowClientConfig := fun j =>
    match unmarshalStringField "password" j, unmarshalStringField "cipherName" j,
      unmarshalStringField "address" j with
    | some p, some c, some a => some ⟨p, c, a⟩
    | _, _, _ => none
  unmarshalReplicantClientJSONConfig := unmarshalStringField "config"
  DecodeClientConfig := fun s => if s = "" then none else some s
  replicantAddress := fun c => c
  unmarshalStarbridgeClientConfig := unmarshalStringField "address"
  starbridgeAddress := fun c => c

/-- Entry `{"name": name, "config": config}`. -/
def entry (name : String) (config : JSON) : JSON :=
  .obj [("name", .str name), ("config", config)]

/-- Document `{"transports": transports, "strategy": strategy}`. -/
def optimizerDoc (transports : List JSON) (strategy : String) : JSON :=
  .obj [("transports", .arr transports), ("strategy", .str strategy)]

/-- A Shadow entry that resolves under `exampleProviders`. -/
def shadowEntry : JSON :=
  entry "shadow"
    (.obj [("password", .str "pw"), ("cipherName", .str "c"), ("address", .str "a")])

/-- A Starbridge entry that resolves under `exampleProviders`. -/
def starbridgeEntry : JSON :=
  entry "Starbridge" (.obj [("address", .str "b")])

/-- A Replicant entry that resolves under `exampleProviders`. -/
def replicantEntry : JSON :=
  entry "Replicant" (.obj [("config", .str "r")])

/-- An entry nested `k` composite clients deep around `leaf`: each level is an
`Optimizer` entry whose transport list holds the level below and whose strategy
is `first`. -/
def nestEntry : Nat → JSON → JSON
  | 0, leaf => leaf
  | k + 1, leaf => entry "Optimizer" (optimizerDoc [nestEntry k leaf] "first")

/-- A configuration with a Replicant entry and a nested composite client over a
Starbridge entry. -/
def exampleNestedDoc : JSONText :=
  .doc (optimizerDoc
    [replicantEntry, entry "Optimizer" (optimizerDoc [starbridgeEntry] "rotate")] "track")

/-- The Starbridge transport `exampleNestedDoc` resolves to under
`exampleProviders` with dialer `dialer`. -/
def exampleStarbridge (dialer : Nat) : TransportDialer Nat String String :=
  .starbridge ⟨"b", "b", dialer⟩

/-- The dialers `exampleNestedDoc` resolves to under `exampleProviders`. -/
def exampleNestedTransports (dialer : Nat) : List (TransportDialer Nat String String) :=
  [.replicant ⟨"r", "r", dialer⟩,
    .optimizer (Optimizer.NewOptimizerClient [exampleStarbridge dialer]
      (Optimizer.NewRotateStrategy [exampleStarbridge dialer]))]

/-- The client `exampleNestedDoc` resolves to under `exampleProviders`. -/
def exampleNestedClient (dialer : Nat) : Client (TransportDialer Nat String String) :=
  Optimizer.NewOptimizerClient (exampleNestedTransports dialer)
    (Optimizer.NewTrackStrategy (exampleNestedTransports dialer))

/-- The Shadow transport `shadowEntry` resolves to under `exampleProviders`. -/
def exampleShadow : TransportDialer Nat String String :=
  .shadow ⟨"pw", "c", "a"⟩

/-- The client of a configuration holding `shadowEntry` alone, strategy
`first`. -/
def exampleShadowClient : Client (TransportDialer Nat String String) :=
  Optimizer.NewOptimizerClient [exampleShadow] (Optimizer.NewFirstStrategy [exampleShadow])

/-! ## Depth of documents and maps -/

theorem depth_le_depthList {x : JSON} {xs : List JSON} (h : x ∈ xs) : x.depth ≤ depthList xs := by
  induction xs with
  | nil => cases h
  | cons y ys ih =>
    rw [depthList]
    rcases List.mem_cons.mp h with rfl | h'
    · exact le_max_left _ _
    · exact le_trans (ih h') (le_max_right _ _)

theorem depth_le_depthMembers {kv : String × JSON} {ms : List (String × JSON)} (h : kv ∈ ms) :
    kv.2.depth ≤ depthMembers ms := by
  induction ms with
  | nil => cases h
  | cons y ys ih =>
    obtain ⟨k, v⟩ := y
    rw [depthMembers]
    rcases List.mem_cons.mp h with rfl | h'
    · exact le_max_left _ _
    · exact le_trans (ih h') (le_max_right _ _)

theorem depthMembers_le_of_forall {ms : List (String × JSON)} {n : Nat}
    (h : ∀ kv ∈ ms, kv.2.depth ≤ n) : depthMembers ms ≤ n := by
  induction ms with
  | nil => simp [depthMembers]
  | cons y ys ih =>
    obtain ⟨k, v⟩ := y
    rw [depthMembers]
    exact max_le (h (k, v) (List.mem_cons_self _ _))
      (ih (fun kv hkv => h kv (List.mem_cons_of_mem _ hkv)))

theorem mem_mapInsert {k : String} {v : JSON} {m : List (String × JSON)} {kv : String × JSON}
    (h : kv ∈ mapInsert k v m) : kv = (k, v) ∨ kv ∈ m := by
  induction m with
  | nil => simpa [mapInsert] using h
  | cons y ys ih =>
    obtain ⟨k', v'⟩ := y
    rw [mapInsert] at h
    split at h
    · rcases List.mem_cons.mp h with h1 | h1
      · exact Or.inl h1
      · exact Or.inr h1
    · split at h
      · rcases List.mem_cons.mp h with h1 | h1
        · exact Or.inl h1
        · exact Or.inr (List.mem_cons_of_mem _ h1)
      · rcases List.mem_cons.mp h with h1 | h1
        · exact Or.inr (h1 ▸ List.mem_cons_self _ _)
        · rcases ih h1 with h2 | h2
          · exact Or.inl h2
          · exact Or.inr (List.mem_cons_of_mem _ h2)

theorem mem_foldl_mapInsert {ms acc : List (String × JSON)} {kv : String × JSON}
    (h : kv ∈ ms.foldl (fun m kv => mapInsert kv.1 kv.2 m) acc) : kv ∈ acc ∨ kv ∈ ms := by
  induction ms generalizing acc with
  | nil => exact Or.inl h
  | cons y ys ih =>
    rw [List.foldl_cons] at h
    rcases ih h with h1 | h1
    · rcases mem_mapInsert h1 with h2 | h2
      · exact Or.inr (h2 ▸ List.mem_cons_self _ _)
      · exact Or.inl h2
    · exact Or.inr (List.mem_cons_of_mem _ h1)

theorem mem_asMap {ms : List (String × JSON)} {kv : String × JSON} (h : kv ∈ asMap ms) :
    kv ∈ ms := by
  rcases mem_foldl_mapInsert h with h1 | h1
  · cases h1
  · exact h1

theorem depthMembers_asMap_le (ms : List (String × JSON)) :
    depthMembers (asMap ms) ≤ depthMembers ms :=
  depthMembers_le_of_forall (fun _ hkv => depth_le_depthMembers (mem_asMap hkv))

theorem mapLookup_mem {k : String} {m : List (String × JSON)} {v : JSON}
    (h : mapLookup k m = some v) : (k, v) ∈ m := by
  induction m with
  | nil => simp [mapLookup] at h
  | cons y ys ih =>
    obtain ⟨k', v'⟩ := y
    rw [mapLookup] at h
    split at h
    · rename_i hk
      cases h
      exact hk ▸ List.mem_cons_self _ _
    · exact List.mem_cons_of_mem _ (ih h)

theorem decodeMember_transports (st : OptimizerConfig × Bool) (kv : String × JSON) :
    (OptimizerConfig.decodeMember st kv).1.Transports = st.1.Transports ∨
      (OptimizerConfig.decodeMember st kv).1.Transports = [] ∨
      kv.2 = .arr (OptimizerConfig.decodeMember st kv).1.Transports := by
  unfold OptimizerConfig.decodeMember
  split
  · split <;> simp_all
  · split
    · split <;> simp_all
    · exact Or.inl rfl

theorem foldl_decodeMember_transports (ms : List (String × JSON)) (acc : OptimizerConfig × Bool) :
    (ms.foldl OptimizerConfig.decodeMember acc).1.Transports = acc.1.Transports ∨
      (ms.foldl OptimizerConfig.decodeMember acc).1.Transports = [] ∨
      ∃ kv ∈ ms, kv.2 = .arr (ms.foldl OptimizerConfig.decodeMember acc).1.Transports := by
  induction ms generalizing acc with
  | nil => exact Or.inl rfl
  | cons y ys ih =>
    rw [List.foldl_cons]
    rcases ih (OptimizerConfig.decodeMember acc y) with h | h | ⟨kv, hkv, h⟩
    · rcases decodeMember_transports acc y with h' | h' | h'
      · exact Or.inl (h.trans h')
      · exact Or.inr (Or.inl (h.trans h'))
      · exact Or.inr (Or.inr ⟨y, List.mem_cons_self _ _, by rw [h]; exact h'⟩)
    · exact Or.inr (Or.inl h)
    · exact Or.inr (Or.inr ⟨kv, List.mem_cons_of_mem _ hkv, h⟩)

/-- The transport list of a decoded configuration is the element list of an
array member of the document, or empty. -/
theorem unmarshalOptimizerConfig_transports {jsonConfig : JSONText} {config : OptimizerConfig}
    (h : unmarshalOptimizerConfig jsonConfig = some config) :
    config.Transports = [] ∨
      ∃ members kv, jsonConfig = .doc (.obj members) ∧ kv ∈ members ∧
        kv.2 = .arr config.Transports := by
  unfold unmarshalOptimizerConfig at h
  split at h
  · rename_i j
    split at h
    · unfold OptimizerConfig.decode at h
      split at h
      · cases h; exact Or.inl rfl
      · rename_i members hdepth
        simp only at h
        split at h
        · cases h
        · cases h
          rcases foldl_decodeMember_transports members (⟨[], ""⟩, false) with
            h' | h' | ⟨kv, hkv, h'⟩
          · exact Or.inl h'
          · exact Or.inl h'
          · exact Or.inr ⟨members, kv, rfl, hkv, h'⟩
      · cases h
    · cases h
  · cases h

theorem unmarshalOptimizerConfig_depth {jsonConfig : JSONText} {config : OptimizerConfig}
    (h : unmarshalOptimizerConfig jsonConfig = some config) :
    depthList config.Transports ≤ jsonConfig.depth := by
  rcases unmarshalOptimizerConfig_transports h with h' | ⟨members, kv, rfl, hkv, h'⟩
  · rw [h']; simp [depthList]
  · have h1 := depth_le_depthMembers hkv
    rw [h', JSON.depth] at h1
    simp only [JSONText.depth, JSON.depth]
    omega

/-- The document handed to the recursive call for an entry is strictly shallower
than the entry. -/
theorem config_depth_lt {otc cfgMembers : List (String × JSON)}
    (h : mapLookup "config" otc = some (.obj cfgMembers)) :
    (jsonMarshal (asMap cfgMembers)).depth < depthMembers otc + 1 := by
  have h1 := depth_le_depthMembers (mapLookup_mem h)
  have h2 := depthMembers_asMap_le cfgMembers
  simp only [JSON.depth] at h1
  simp only [jsonMarshal, JSONText.depth, JSON.depth]
  omega

/-! ## The budget of the recursion is never exhausted

Two continuations that agree on all shallower documents give the same result,
so every budget above the depth of the document gives the same result, and that
result is not the exhaustion of the budget. -/

theorem parsedTransportWith_congr {D RC SC : Type} (P : Providers RC SC)
    (r₁ r₂ : JSONText → D → Result (Client (TransportDialer D RC SC))) (dialer : D) (n : Nat)
    (hr : ∀ j : JSONText, j.depth < n → r₁ j dialer = r₂ j dialer)
    (otc : List (String × JSON)) (hd : depthMembers otc < n) :
    parsedTransportWith P r₁ otc dialer = parsedTransportWith P r₂ otc dialer := by
  unfold parsedTransportWith
  simp only
  split
  · rfl
  · split
    · rfl
    · rename_i cfgMembers hcfg
      have hlt := config_depth_lt hcfg
      rw [hr _ (by omega)]
    · rfl

theorem parseTransportsWith_congr {D RC SC : Type} (P : Providers RC SC)
    (r₁ r₂ : JSONText → D → Result (Client (TransportDialer D RC SC))) (dialer : D) (n : Nat)
    (hr : ∀ j : JSONText, j.depth < n → r₁ j dialer = r₂ j dialer)
    (otcs : List JSON) (hd : depthList otcs ≤ n) :
    parseTransportsWith P r₁ otcs dialer = parseTransportsWith P r₂ otcs dialer := by
  induction otcs with
  | nil => rfl
  | cons x xs ih =>
    rw [depthList] at hd
    have hx : x.depth ≤ n := le_trans (le_max_left _ _) hd
    have hxs : depthList xs ≤ n := le_trans (le_max_right _ _) hd
    cases x with
    | obj members =>
      have h1 := depthMembers_asMap_le members
      rw [JSON.depth] at hx
      simp only [parseTransportsWith]
      rw [parsedTransportWith_congr P r₁ r₂ dialer n hr (asMap members) (by omega), ih hxs]
    | _ => rfl

theorem ParseArgsOptimizerWith_congr {D RC SC : Type} (P : Providers RC SC)
    (r₁ r₂ : JSONText → D → Result (Client (TransportDialer D RC SC))) (dialer : D)
    (jsonConfig : JSONText)
    (hr : ∀ j : JSONText, j.depth < jsonConfig.depth → r₁ j dialer = r₂ j dialer) :
    ParseArgsOptimizerWith P r₁ jsonConfig dialer = ParseArgsOptimizerWith P r₂ jsonConfig dialer := by
  unfold ParseArgsOptimizerWith
  split
  · rfl
  · rename_i config hcfg
    rw [parseTransportsWith_congr P r₁ r₂ dialer _ hr _ (unmarshalOptimizerConfig_depth hcfg)]

theorem ParseArgsOptimizerFuel_stable {D RC SC : Type} (P : Providers RC SC) (dialer : D) :
    ∀ (n m : Nat) (jsonConfig : JSONText), jsonConfig.depth < n → jsonConfig.depth < m →
      ParseArgsOptimizerFuel P n jsonConfig dialer = ParseArgsOptimizerFuel P m jsonConfig dialer := by
  intro n
  induction n with
  | zero => intro m j h; omega
  | succ n ih =>
    intro m j hn hm
    cases m with
    | zero => omega
    | succ m =>
      simp only [ParseArgsOptimizerFuel]
      exact ParseArgsOptimizerWith_congr P _ _ dialer j
        (fun j' hj' => ih m j' (by omega) (by omega))

/-- The recursive equation of `ParseArgsOptimizer`. -/
theorem ParseArgsOptimizer_unfold {D RC SC : Type} (P : Providers RC SC) (jsonConfig : JSONText)
    (dialer : D) :
    ParseArgsOptimizer P jsonConfig dialer =
      ParseArgsOptimizerWith P (ParseArgsOptimizer P) jsonConfig dialer := by
  have h : ParseArgsOptimizer P jsonConfig dialer =
      ParseArgsOptimizerWith P (ParseArgsOptimizerFuel P jsonConfig.depth) jsonConfig dialer := rfl
  rw [h]
  exact ParseArgsOptimizerWith_congr P _ _ dialer jsonConfig
    (fun j' hj' => ParseArgsOptimizerFuel_stable P dialer _ (j'.depth + 1) j' hj' (by omega))

theorem parsedTransportWith_ne_exhausted {D RC SC : Type} (P : Providers RC SC)
    (r : JSONText → D → Result (Client (TransportDialer D RC SC))) (dialer : D) (n : Nat)
    (hr : ∀ j : JSONText, j.depth < n → r j dialer ≠ .error .fuelExhausted)
    (otc : List (String × JSON)) (hd : depthMembers otc < n) :
    parsedTransportWith P r otc dialer ≠ .error .fuelExhausted := by
  unfold parsedTransportWith
  simp only
  split
  · simp
  · split
    · simp
    · rename_i cfgMembers hcfg
      have hlt := config_depth_lt hcfg
      have hne := hr (jsonMarshal (asMap cfgMembers)) (by omega)
      repeat' split
      all_goals first
        | (intro h; cases h; done)
        | (rename_i hex; exact absurd hex hne)
    · simp

theorem parseTransportsWith_ne_exhausted {D RC SC : Type} (P : Providers RC SC)
    (r : JSONText → D → Result (Client (TransportDialer D RC SC))) (dialer : D) (n : Nat)
    (hr : ∀ j : JSONText, j.depth < n → r j dialer ≠ .error .fuelExhausted)
    (otcs : List JSON) (hd : depthList otcs ≤ n) :
    parseTransportsWith P r otcs dialer ≠ .error .fuelExhausted := by
  induction otcs with
  | nil => simp [parseTransportsWith]
  | cons x xs ih =>
    rw [depthList] at hd
    have hx : x.depth ≤ n := le_trans (le_max_left _ _) hd
    have hxs : depthList xs ≤ n := le_trans (le_max_right _ _) hd
    cases x with
    | obj members =>
      have h1 := depthMembers_asMap_le members
      rw [JSON.depth] at hx
      have h2 := parsedTransportWith_ne_exhausted P r dialer n hr (asMap members) (by omega)
      have h3 := ih hxs
      simp only [parseTransportsWith]
      repeat' split
      all_goals first
        | (intro h; cases h; done)
        | (rename_i hex; exact absurd hex h2)
        | (rename_i hex; intro h; cases h; exact absurd hex h3)
    | _ => simp [parseTransportsWith]

theorem ParseArgsOptimizerWith_ne_exhausted {D RC SC : Type} (P : Providers RC SC)
    (r : JSONText → D → Result (Client (TransportDialer D RC SC))) (dialer : D)
    (jsonConfig : JSONText)
    (hr : ∀ j : JSONText, j.depth < jsonConfig.depth → r j dialer ≠ .error .fuelExhausted) :
    ParseArgsOptimizerWith P r jsonConfig dialer ≠ .error .fuelExhausted := by
  unfold ParseArgsOptimizerWith
  split
  · simp
  · rename_i config hcfg
    have h2 := parseTransportsWith_ne_exhausted P r dialer _ hr _
      (unmarshalOptimizerConfig_depth hcfg)
    repeat' split
    all_goals first
      | (intro h; cases h; done)
      | (rename_i hex; exact absurd hex h2)

theorem ParseArgsOptimizerFuel_ne_exhausted {D RC SC : Type} (P : Providers RC SC) (dialer : D) :
    ∀ (n : Nat) (jsonConfig : JSONText), jsonConfig.depth < n →
      ParseArgsOptimizerFuel P n jsonConfig dialer ≠ .error .fuelExhausted := by
  intro n
  induction n with
  | zero => intro j h; omega
  | succ n ih =>
    intro j hn
    simp only [ParseArgsOptimizerFuel]
    exact ParseArgsOptimizerWith_ne_exhausted P _ dialer j (fun j' hj' => ih j' (by omega))

theorem ParseArgsOptimizer_ne_exhausted {D RC SC : Type} (P : Providers RC SC)
    (jsonConfig : JSONText) (dialer : D) :
    ParseArgsOptimizer P jsonConfig dialer ≠ .error .fuelExhausted :=
  ParseArgsOptimizerFuel_ne_exhausted P dialer _ jsonConfig (Nat.lt_succ_self _)

theorem parsedTransport_ne_exhausted {D RC SC : Type} (P : Providers RC SC)
    (otc : List (String × JSON)) (dialer : D) :
    parsedTransport P otc dialer ≠ .error .fuelExhausted :=
  parsedTransportWith_ne_exhausted P _ dialer (depthMembers otc + 1)
    (fun j _ => ParseArgsOptimizer_ne_exhausted P j dialer) otc (Nat.lt_succ_self _)

theorem parseTransports_ne_exhausted {D RC SC : Type} (P : Providers RC SC)
    (otcs : List JSON) (dialer : D) :
    parseTransports P otcs dialer ≠ .error .fuelExhausted :=
  parseTransportsWith_ne_exhausted P _ dialer (depthList otcs)
    (fun j _ => ParseArgsOptimizer_ne_exhausted P j dialer) otcs (le_refl _)

/-! ## Equations of the resolver -/

theorem parseStrategy_ok_of_mem {T : Type} (strategyString : String) (transports : List T)
    (h : strategyString ∈ ["first", "random", "rotate", "track", "minimizeDialDuration"]) :
    ∃ strategy, parseStrategy strategyString transports = .ok strategy ∧
      strategy.transports = transports := by
  simp only [List.mem_cons, List.mem_singleton, List.not_mem_nil, or_false] at h
  rcases h with h | h | h | h | h <;> subst h <;> exact ⟨_, rfl, rfl⟩

theorem parseStrategy_error_of_not_mem {T : Type} (strategyString : String) (transports : List T)
    (h : strategyString ∉ ["first", "random", "rotate", "track", "minimizeDialDuration"]) :
    parseStrategy strategyString transports = .error (.New "invalid strategy") := by
  simp only [List.mem_cons, List.mem_singleton, List.not_mem_nil, or_false, not_or] at h
  obtain ⟨h1, h2, h3, h4, h5⟩ := h
  simp [parseStrategy, h1, h2, h3, h4, h5]

theorem parseStrategy_transports {T : Type} (strategyString : String) (transports : List T)
    (strategy : Strategy T) (h : parseStrategy strategyString transports = .ok strategy) :
    strategy.transports = transports := by
  unfold parseStrategy at h
  repeat' split at h
  all_goals first
    | (cases h; rfl)
    | cases h

theorem ParseArgsOptimizer_of_transports {D RC SC : Type} (P : Providers RC SC)
    (jsonConfig : JSONText) (dialer : D) (config : OptimizerConfig)
    (transports : List (TransportDialer D RC SC))
    (hcfg : unmarshalOptimizerConfig jsonConfig = some config)
    (hts : parseTransports P config.Transports dialer = .ok transports) :
    ParseArgsOptimizer P jsonConfig dialer =
      match parseStrategy config.Strategy transports with
      | .error _ => .error (.New "could not parse strategy")
      | .ok strategy => .ok (Optimizer.NewOptimizerClient transports strategy) := by
  rw [ParseArgsOptimizer_unfold]
  unfold ParseArgsOptimizerWith
  rw [parseTransports] at hts
  simp only [hcfg, hts]

theorem parseTransports_nil {D RC SC : Type} (P : Providers RC SC) (dialer : D) :
    parseTransports P [] dialer = .ok [] := rfl

theorem parseTransports_cons_obj {D RC SC : Type} (P : Providers RC SC)
    (members : List (String × JSON)) (rest : List JSON) (dialer : D) :
    parseTransports P (.obj members :: rest) dialer =
      match parsedTransport P (asMap members) dialer with
      | .error .fuelExhausted => .error .fuelExhausted
      | .error (.New _) => .error (.New "transport could not parse config")
      | .ok transport =>
        match parseTransports P rest dialer with
        | .error e => .error e
        | .ok transports => .ok (transport :: transports) := rfl

theorem parseTransports_cons_error {D RC SC : Type} (P : Providers RC SC)
    (members : List (String × JSON)) (rest : List JSON) (dialer : D) (e : GoError)
    (h : parsedTransport P (asMap members) dialer = .error e) :
    parseTransports P (.obj members :: rest) dialer =
      .error (.New "transport could not parse config") := by
  rw [parseTransports_cons_obj]
  cases e with
  | New text => rw [h]
  | fuelExhausted => exact absurd h (parsedTransport_ne_exhausted P _ dialer)

theorem parseTransports_cons_ok {D RC SC : Type} (P : Providers RC SC)
    (members : List (String × JSON)) (rest : List JSON) (dialer : D)
    (transport : TransportDialer D RC SC)
    (h : parsedTransport P (asMap members) dialer = .ok transport) :
    parseTransports P (.obj members :: rest) dialer =
      match parseTransports P rest dialer with
      | .error e => .error e
      | .ok transports => .ok (transport :: transports) := by
  rw [parseTransports_cons_obj, h]

theorem parseTransports_cons_not_obj {D RC SC : Type} (P : Providers RC SC)
    (x : JSON) (rest : List JSON) (dialer : D) (h : ∀ members, x ≠ .obj members) :
    parseTransports P (x :: rest) dialer = .error (.New "unsupported type for transport") := by
  cases x with
  | obj members => exact absurd rfl (h members)
  | _ => rfl

/-- Every failure of `parseTransports` is an `errors.New` value. -/
theorem parseTransports_error_New {D RC SC : Type} (P : Providers RC SC)
    (otcs : List JSON) (dialer : D) (e : GoError)
    (h : parseTransports P otcs dialer = .error e) : ∃ text, e = .New text := by
  cases e with
  | New text => exact ⟨text, rfl⟩
  | fuelExhausted => exact absurd h (parseTransports_ne_exhausted P otcs dialer)

/-- A failing entry makes the whole list fail, wherever it stands. -/
theorem parseTransports_error_of_entry {D RC SC : Type} (P : Providers RC SC)
    (before after : List JSON) (members : List (String × JSON)) (dialer : D) (e : GoError)
    (h : parsedTransport P (asMap members) dialer = .error e) :
    ∃ text, parseTransports P (before ++ .obj members :: after) dialer = .error (.New text) := by
  induction before with
  | nil => exact ⟨_, parseTransports_cons_error P members after dialer e h⟩
  | cons x xs ih =>
    obtain ⟨text, ht⟩ := ih
    rw [List.cons_append]
    cases x with
    | obj ms =>
      cases hx : parsedTransport P (asMap ms) dialer with
      | error e' => exact ⟨_, parseTransports_cons_error P ms _ dialer e' hx⟩
      | ok t =>
        rw [parseTransports_cons_ok P ms _ dialer t hx, ht]
        exact ⟨_, rfl⟩
    | _ => exact ⟨_, rfl⟩

theorem ParseArgsOptimizer_of_transports_error {D RC SC : Type} (P : Providers RC SC)
    (jsonConfig : JSONText) (dialer : D) (config : OptimizerConfig) (e : GoError)
    (hcfg : unmarshalOptimizerConfig jsonConfig = some config)
    (hts : parseTransports P config.Transports dialer = .error e) :
    ParseArgsOptimizer P jsonConfig dialer = .error (.New "could not parse transports") := by
  obtain ⟨text, rfl⟩ := parseTransports_error_New P _ dialer e hts
  rw [ParseArgsOptimizer_unfold]
  unfold ParseArgsOptimizerWith
  rw [parseTransports] at hts
  simp only [hcfg, hts]

theorem parseTransports_append_ok {D RC SC : Type} (P : Providers RC SC)
    (before rest : List JSON) (dialer : D) (bs : List (TransportDialer D RC SC))
    (h : parseTransports P before dialer = .ok bs) :
    parseTransports P (before ++ rest) dialer =
      match parseTransports P rest dialer with
      | .error e => .error e
      | .ok transports => .ok (bs ++ transports) := by
  induction before generalizing bs with
  | nil =>
    rw [parseTransports_nil] at h
    cases h
    simp only [List.nil_append]
    cases parseTransports P rest dialer <;> rfl
  | cons x xs ih =>
    cases x with
    | obj members =>
      cases hx : parsedTransport P (asMap members) dialer with
      | error e =>
        rw [parseTransports_cons_error P members xs dialer e hx] at h
        cases h
      | ok t =>
        rw [parseTransports_cons_ok P members xs dialer t hx] at h
        cases hrest : parseTransports P xs dialer with
        | error e =>
          rw [hrest] at h
          cases h
        | ok ts =>
          rw [hrest] at h
          cases h
          rw [List.cons_append, parseTransports_cons_ok P members _ dialer t hx, ih ts hrest]
          cases parseTransports P rest dialer <;> rfl
    | null => cases h
    | bool b => cases h
    | num n => cases h
    | str s => cases h
    | arr ys => cases h

theorem parsedTransport_error_of_unregistered {D RC SC : Type} (P : Providers RC SC)
    (otc : List (String × JSON)) (dialer : D)
    (hname : ∀ pc, unmarshalPartialOptimizerConfig (jsonMarshal otc) = some pc →
      pc.Name ∉ Transports) :
    ∃ text, parsedTransport P otc dialer = .error (.New text) := by
  unfold parsedTransport parsedTransportWith
  simp only
  split
  · exact ⟨_, rfl⟩
  · rename_i pc hpc
    have hn := hname pc hpc
    simp only [Transports, List.mem_cons, List.mem_singleton, List.not_mem_nil, or_false,
      not_or] at hn
    obtain ⟨h1, h2, h3, h4⟩ := hn
    split
    · exact ⟨_, rfl⟩
    · simp only [h1, h2, h3, h4, if_false]
      exact ⟨_, rfl⟩
    · exact ⟨_, rfl⟩

/-- Dispatch of `parsedTransport` on an entry whose name field decodes and whose
`config` is an object. -/
theorem parsedTransport_dispatch {D RC SC : Type} (P : Providers RC SC)
    (otc : List (String × JSON)) (dialer : D) (pc : PartialOptimizerConfig)
    (cfgMembers : List (String × JSON))
    (hname : unmarshalPartialOptimizerConfig (jsonMarshal otc) = some pc)
    (hcfg : mapLookup "config" otc = some (.obj cfgMembers)) :
    parsedTransport P otc dialer =
      if pc.Name = "shadow" then
        match ParseArgsShadow P (jsonMarshal (asMap cfgMembers)) with
        | .error _ => .error (.New "could not parse shadow Args")
        | .ok shadowTransport => .ok (.shadow shadowTransport)
      else if pc.Name = "Replicant" then
        match ParseArgsReplicantClient P (jsonMarshal (asMap cfgMembers)) dialer with
        | .error _ => .error (.New "could not parse replicant Args")
        | .ok replicantTransport => .ok (.replicant replicantTransport)
      else if pc.Name = "Starbridge" then
        match ParseArgsStarbridgeClient P (jsonMarshal (asMap cfgMembers)) dialer with
        | .error _ => .error (.New "could not parse starbridge Args")
        | .ok starbridgeTransport => .ok (.starbridge starbridgeTransport)
      else if pc.Name = "Optimizer" then
        match ParseArgsOptimizer P (jsonMarshal (asMap cfgMembers)) dialer with
        | .error _ => .error (.New "could not parse Optimizer Args")
        | .ok optimizerTransport => .ok (.optimizer optimizerTransport)
      else .error (.New "unsupported transport name") := by
  unfold parsedTransport parsedTransportWith
  simp only [hname, hcfg]
  split
  · rfl
  · split
    · rfl
    · split
      · rfl
      · split
        · have hne := ParseArgsOptimizer_ne_exhausted P (jsonMarshal (asMap cfgMembers)) dialer
          split
          · rename_i hex
            exact absurd hex hne
          · rename_i hex
            rw [hex]
          · rename_i hex
            rw [hex]
        · rfl

/-- On success the result of `parseTransports` is index by index the dialers of
the entries. -/
theorem parseTransports_ok_index {D RC SC : Type} (P : Providers RC SC)
    (otcs : List JSON) (dialer : D) (transports : List (TransportDialer D RC SC))
    (h : parseTransports P otcs dialer = .ok transports) :
    transports.length = otcs.length ∧
      ∀ i, i < otcs.length → ∃ members transport,
        otcs[i]? = some (.obj members) ∧ transports[i]? = some transport ∧
        parsedTransport P (asMap members) dialer = .ok transport := by
  induction otcs generalizing transports with
  | nil =>
    rw [parseTransports_nil] at h
    cases h
    exact ⟨rfl, fun i hi => absurd hi (Nat.not_lt_zero i)⟩
  | cons x xs ih =>
    cases x with
    | obj members =>
      cases hx : parsedTransport P (asMap members) dialer with
      | error e =>
        rw [parseTransports_cons_error P members xs dialer e hx] at h
        cases h
      | ok t =>
        rw [parseTransports_cons_ok P members xs dialer t hx] at h
        cases hrest : parseTransports P xs dialer with
        | error e =>
          rw [hrest] at h
          cases h
        | ok ts =>
          rw [hrest] at h
          cases h
          obtain ⟨hlen, hel⟩ := ih ts hrest
          refine ⟨by simp [hlen], ?_⟩
          intro i hi
          cases i with
          | zero => exact ⟨members, t, by simp, by simp, hx⟩
          | succ i =>
            obtain ⟨ms, t', h1, h2, h3⟩ := hel i (by simpa using hi)
            exact ⟨ms, t', by simpa using h1, by simpa using h2, h3⟩
    | null => cases h
    | bool b => cases h
    | num n => cases h
    | str s => cases h
    | arr ys => cases h

/-- The indexed loop over a fresh slice fills it with the list the recursion
returns, and fails where the recursion fails. -/
theorem parseTransportsLoop_eq {D RC SC : Type} (P : Providers RC SC)
    (recur : JSONText → D → Result (Client (TransportDialer D RC SC))) (dialer : D)
    (otcs : List JSON) (stored : List (TransportDialer D RC SC)) :
    parseTransportsLoop P recur dialer stored.length otcs
        (stored.map some ++ List.replicate otcs.length none) =
      match parseTransportsWith P recur otcs dialer with
      | .error e => .error e
      | .ok transports => .ok ((stored ++ transports).map some) := by
  induction otcs generalizing stored with
  | nil => simp [parseTransportsLoop, parseTransportsWith]
  | cons x xs ih =>
    cases x with
    | obj members =>
      simp only [parseTransportsLoop, parseTransportsWith]
      cases hx : parsedTransportWith P recur (asMap members) dialer with
      | error e => cases e <;> rfl
      | ok t =>
        simp only
        have hset : (stored.map some ++ List.replicate (xs.length + 1) none).set stored.length
            (some t) = (stored ++ [t]).map some ++ List.replicate xs.length none := by
          rw [List.set_append_right _ _ (by simp)]
          simp [List.replicate_succ]
        have hlen : stored.length + 1 = (stored ++ [t]).length := by simp
        rw [List.length_cons, hset, hlen, ih (stored ++ [t])]
        cases parseTransportsWith P recur xs dialer with
        | error e => rfl
        | ok ts => simp
    | _ => rfl

/-- An entry whose name field does not decode fails before its config is
looked at. -/
theorem parsedTransport_name_undecodable {D RC SC : Type} (P : Providers RC SC)
    (otc : List (String × JSON)) (dialer : D)
    (hname : unmarshalPartialOptimizerConfig (jsonMarshal otc) = none) :
    parsedTransport P otc dialer = .error (.New "error unmarshalling optimizer otc") := by
  unfold parsedTransport parsedTransportWith
  simp only [hname]

theorem parsedTransport_missing_config {D RC SC : Type} (P : Providers RC SC)
    (otc : List (String × JSON)) (dialer : D) (pc : PartialOptimizerConfig)
    (hname : unmarshalPartialOptimizerConfig (jsonMarshal otc) = some pc)
    (hcfg : mapLookup "config" otc = none) :
    parsedTransport P otc dialer = .error (.New "missing config in transport parser") := by
  unfold parsedTransport parsedTransportWith
  simp only [hname, hcfg]

theorem parsedTransport_config_not_object {D RC SC : Type} (P : Providers RC SC)
    (otc : List (String × JSON)) (dialer : D) (pc : PartialOptimizerConfig) (v : JSON)
    (hname : unmarshalPartialOptimizerConfig (jsonMarshal otc) = some pc)
    (hcfg : mapLookup "config" otc = some v) (hv : ∀ cfgMembers, v ≠ .obj cfgMembers) :
    parsedTransport P otc dialer =
      .error (.New "unsupported type for optimizer config option") := by
  unfold parsedTransport parsedTransportWith
  cases v with
  | obj cfgMembers => exact absurd rfl (hv cfgMembers)
  | _ => simp only [hname, hcfg]

theorem parsedTransport_unsupported_name {D RC SC : Type} (P : Providers RC SC)
    (otc : List (String × JSON)) (dialer : D) (pc : PartialOptimizerConfig)
    (cfgMembers : List (String × JSON))
    (hname : unmarshalPartialOptimizerConfig (jsonMarshal otc) = some pc)
    (hcfg : mapLookup "config" otc = some (.obj cfgMembers)) (hn : pc.Name ∉ Transports) :
    parsedTransport P otc dialer = .error (.New "unsupported transport name") := by
  simp only [Transports, List.mem_cons, List.mem_singleton, List.not_mem_nil, or_false,
    not_or] at hn
  obtain ⟨h1, h2, h3, h4⟩ := hn
  rw [parsedTransport_dispatch P otc dialer pc cfgMembers hname hcfg]
  simp only [h1, h2, h3, h4, if_false]

/-! ## The dialer reaching the leaf transports -/

theorem parsedTransportWith_leaves {D RC SC : Type} (P : Providers RC SC)
    (r : JSONText → D → Result (Client (TransportDialer D RC SC))) (dialer : D)
    (hr : ∀ j c, r j dialer = .ok c → ∀ l ∈ clientLeaves c, LeafUses dialer l)
    (otc : List (String × JSON)) (t : TransportDialer D RC SC)
    (h : parsedTransportWith P r otc dialer = .ok t) :
    ∀ l ∈ t.leaves, LeafUses dialer l := by
  unfold parsedTransportWith at h
  simp only at h
  split at h
  · cases h
  · split at h
    · cases h
    · split at h
      · split at h
        · cases h
        · cases h
          intro l hl
          simp only [TransportDialer.leaves, List.mem_singleton] at hl
          exact Or.inl ⟨_, hl⟩
      · split at h
        · split at h
          · cases h
          · rename_i rt hrt
            cases h
            intro l hl
            simp only [TransportDialer.leaves, List.mem_singleton] at hl
            refine Or.inr (Or.inl ⟨rt, hl, ?_⟩)
            unfold ParseArgsReplicantClient at hrt
            repeat' split at hrt
            all_goals first
              | (cases hrt; rfl)
              | cases hrt
        · split at h
          · split at h
            · cases h
            · rename_i st hst
              cases h
              intro l hl
              simp only [TransportDialer.leaves, List.mem_singleton] at hl
              refine Or.inr (Or.inr ⟨st, hl, ?_⟩)
              unfold ParseArgsStarbridgeClient at hst
              repeat' split at hst
              all_goals first
                | (cases hst; rfl)
                | cases hst
          · split at h
            · split at h
              · cases h
              · cases h
              · rename_i c hc
                cases h
                intro l hl
                simp only [TransportDialer.leaves] at hl
                exact hr _ c hc l hl
            · cases h
    · cases h

theorem mem_listLeaves_cons {D RC SC : Type} (t : TransportDialer D RC SC)
    (ts : List (TransportDialer D RC SC)) (l : TransportDialer D RC SC) :
    l ∈ listLeaves (t :: ts) ↔ l ∈ t.leaves ∨ l ∈ listLeaves ts := by
  rw [listLeaves, List.mem_append]

theorem parseTransportsWith_leaves {D RC SC : Type} (P : Providers RC SC)
    (r : JSONText → D → Result (Client (TransportDialer D RC SC))) (dialer : D)
    (hr : ∀ j c, r j dialer = .ok c → ∀ l ∈ clientLeaves c, LeafUses dialer l)
    (otcs : List JSON) (ts : List (TransportDialer D RC SC))
    (h : parseTransportsWith P r otcs dialer = .ok ts) :
    ∀ l ∈ listLeaves ts, LeafUses dialer l := by
  induction otcs generalizing ts with
  | nil =>
    cases h
    intro l hl
    simp [listLeaves] at hl
  | cons x xs ih =>
    unfold parseTransportsWith at h
    split at h
    · split at h
      · cases h
      · cases h
      · rename_i t ht
        split at h
        · cases h
        · rename_i ts' hts'
          cases h
          intro l hl
          rcases (mem_listLeaves_cons t ts' l).mp hl with h1 | h1
          · exact parsedTransportWith_leaves P r dialer hr _ t ht l h1
          · exact ih ts' hts' l h1
    · cases h

theorem ParseArgsOptimizerWith_leaves {D RC SC : Type} (P : Providers RC SC)
    (r : JSONText → D → Result (Client (TransportDialer D RC SC))) (dialer : D)
    (hr : ∀ j c, r j dialer = .ok c → ∀ l ∈ clientLeaves c, LeafUses dialer l)
    (jsonConfig : JSONText) (client : Client (TransportDialer D RC SC))
    (h : ParseArgsOptimizerWith P r jsonConfig dialer = .ok client) :
    ∀ l ∈ clientLeaves client, LeafUses dialer l := by
  unfold ParseArgsOptimizerWith at h
  split at h
  · cases h
  · split at h
    · cases h
    · cases h
    · rename_i ts hts
      split at h
      · cases h
      · rename_i strategy hs
        cases h
        have hst := parseStrategy_transports _ _ _ hs
        have hl := parseTransportsWith_leaves P r dialer hr _ ts hts
        intro l hmem
        obtain ⟨kind, sts⟩ := strategy
        simp only at hst
        subst hst
        simp only [Optimizer.NewOptimizerClient, clientLeaves, strategyLeaves,
          List.mem_append, or_self] at hmem
        exact hl l hmem

theorem ParseArgsOptimizerFuel_leaves {D RC SC : Type} (P : Providers RC SC) (dialer : D) :
    ∀ (n : Nat) (jsonConfig : JSONText) (client : Client (TransportDialer D RC SC)),
      ParseArgsOptimizerFuel P n jsonConfig dialer = .ok client →
      ∀ l ∈ clientLeaves client, LeafUses dialer l := by
  intro n
  induction n with
  | zero =>
    intro j c h
    cases h
  | succ n ih =>
    intro j c h
    exact ParseArgsOptimizerWith_leaves P _ dialer ih j c h

/-! ## The nesting limit of the decoder -/

theorem unmarshalOptimizerConfig_of_le {j : JSON} (h : j.depth ≤ maxNestingDepth) :
    unmarshalOptimizerConfig (.doc j) = OptimizerConfig.decode j := by
  simp only [unmarshalOptimizerConfig, h, if_true]

theorem unmarshalOptimizerConfig_of_lt {j : JSON} (h : maxNestingDepth < j.depth) :
    unmarshalOptimizerConfig (.doc j) = none := by
  simp only [unmarshalOptimizerConfig, Nat.not_le.mpr h, if_false]

theorem unmarshalPartialOptimizerConfig_of_le {j : JSON} (h : j.depth ≤ maxNestingDepth) :
    unmarshalPartialOptimizerConfig (.doc j) = PartialOptimizerConfig.decode j := by
  simp only [unmarshalPartialOptimizerConfig, h, if_true]

theorem unmarshalOptimizerConfig_scanned {jsonConfig : JSONText} {config : OptimizerConfig}
    (h : unmarshalOptimizerConfig jsonConfig = some config) :
    jsonConfig.depth ≤ maxNestingDepth := by
  unfold unmarshalOptimizerConfig at h
  split at h
  · split at h
    · assumption
    · cases h
  · cases h

/-- The texts the resolver re-serialises from an accepted configuration, an entry
and the `config` of an entry, nest no deeper than the configuration, so the scan
of the decoder accepts them. -/
theorem reserialised_depth_le {jsonConfig : JSONText} {config : OptimizerConfig}
    {members : List (String × JSON)}
    (hcfg : unmarshalOptimizerConfig jsonConfig = some config)
    (hmem : JSON.obj members ∈ config.Transports) :
    (jsonMarshal (asMap members)).depth ≤ maxNestingDepth ∧
      ∀ cfgMembers, mapLookup "config" (asMap members) = some (.obj cfgMembers) →
        (jsonMarshal (asMap cfgMembers)).depth ≤ maxNestingDepth := by
  have h0 := unmarshalOptimizerConfig_scanned hcfg
  have h1 := unmarshalOptimizerConfig_depth hcfg
  have h2 := depth_le_depthList hmem
  have h3 := depthMembers_asMap_le members
  rw [JSON.depth] at h2
  refine ⟨?_, ?_⟩
  · simp only [jsonMarshal, JSONText.depth, JSON.depth]
    omega
  · intro cfgMembers hlook
    have h4 := config_depth_lt hlook
    omega

/-- A configuration that does not decode is refused before any transport is
looked at. -/
theorem ParseArgsOptimizer_of_decode_error {D RC SC : Type} (P : Providers RC SC)
    (jsonConfig : JSONText) (dialer : D) (h : unmarshalOptimizerConfig jsonConfig = none) :
    ParseArgsOptimizer P jsonConfig dialer =
      .error (.New "could not marshal optimizer config") := by
  rw [ParseArgsOptimizer_unfold]
  unfold ParseArgsOptimizerWith
  simp only [h]

theorem depth_entry (name : String) (config : JSON) :
    (entry name config).depth = config.depth + 1 := by
  simp [entry, JSON.depth, depthMembers]

theorem depth_optimizerDoc (transports : List JSON) (strategy : String) :
    (optimizerDoc transports strategy).depth = depthList transports + 2 := by
  simp [optimizerDoc, JSON.depth, depthMembers]

theorem depth_nestEntry (k : Nat) (leaf : JSON) :
    (nestEntry k leaf).depth = 3 * k + leaf.depth := by
  induction k with
  | zero => simp [nestEntry]
  | succ k ih =>
    rw [nestEntry, depth_entry, depth_optimizerDoc]
    simp only [depthList, Nat.max_zero, ih]
    omega

/-- Depth of the configuration holding `leaf` under `k` composite clients. -/
theorem depth_optimizerDoc_nestEntry (k : Nat) (leaf : JSON) (strategy : String) :
    (optimizerDoc [nestEntry k leaf] strategy).depth = 3 * k + leaf.depth + 2 := by
  rw [depth_optimizerDoc]
  simp only [depthList, Nat.max_zero, depth_nestEntry]

/-- A configuration nested deeper than the decoder allows is refused. -/
theorem ParseArgsOptimizer_of_deep {D RC SC : Type} (P : Providers RC SC) (j : JSON)
    (dialer : D) (h : maxNestingDepth < j.depth) :
    ParseArgsOptimizer P (.doc j) dialer =
      .error (.New "could not marshal optimizer config") :=
  ParseArgsOptimizer_of_decode_error P (.doc j) dialer (unmarshalOptimizerConfig_of_lt h)

/-- A configuration holding one entry that resolves, strategy `first`, is
accepted when the decoder accepts its nesting. -/
theorem ParseArgsOptimizer_single_entry {D RC SC : Type} (P : Providers RC SC) (dialer : D)
    (members : List (String × JSON)) (t : TransportDialer D RC SC)
    (ht : parsedTransport P (asMap members) dialer = .ok t)
    (hdepth : (optimizerDoc [.obj members] "first").depth ≤ maxNestingDepth) :
    ParseArgsOptimizer P (.doc (optimizerDoc [.obj members] "first")) dialer =
        .ok (Optimizer.NewOptimizerClient [t] (Optimizer.NewFirstStrategy [t])) ∧
      ParseArgsOptimizer P
          (jsonMarshal (asMap [("transports", .arr [.obj members]), ("strategy", .str "first")]))
          dialer =
        .ok (Optimizer.NewOptimizerClient [t] (Optimizer.NewFirstStrategy [t])) := by
  have hts : parseTransports P [.obj members] dialer = .ok [t] := by
    rw [parseTransports_cons_ok P members [] dialer t ht, parseTransports_nil]
  have hsorted : (JSON.obj (asMap [("transports", .arr [.obj members]),
      ("strategy", .str "first")])).depth = (optimizerDoc [.obj members] "first").depth := by
    have h1 : asMap [("transports", JSON.arr [.obj members]), ("strategy", .str "first")] =
        [("strategy", .str "first"), ("transports", .arr [.obj members])] := rfl
    rw [h1, depth_optimizerDoc]
    simp [JSON.depth, depthMembers]
  have hcfg₁ : unmarshalOptimizerConfig (.doc (optimizerDoc [.obj members] "first")) =
      some ⟨[.obj members], "first"⟩ := by
    rw [unmarshalOptimizerConfig_of_le hdepth]
    rfl
  have hcfg₂ : unmarshalOptimizerConfig
      (jsonMarshal (asMap [("transports", .arr [.obj members]), ("strategy", .str "first")])) =
      some ⟨[.obj members], "first"⟩ := by
    unfold jsonMarshal
    rw [unmarshalOptimizerConfig_of_le (by rw [hsorted]; exact hdepth)]
    rfl
  constructor
  · rw [ParseArgsOptimizer_of_transports P _ dialer ⟨[.obj members], "first"⟩ [t] hcfg₁ hts]
    rfl
  · rw [ParseArgsOptimizer_of_transports P _ dialer ⟨[.obj members], "first"⟩ [t] hcfg₂ hts]
    rfl

theorem nestEntry_resolves {D RC SC : Type} (P : Providers RC SC) (dialer : D)
    (leaf : List (String × JSON)) (transport : TransportDialer D RC SC)
    (hleaf : parsedTransport P (asMap leaf) dialer = .ok transport) :
    ∀ k, (nestEntry k (.obj leaf)).depth ≤ maxNestingDepth →
      ∃ members t, nestEntry k (.obj leaf) = .obj members ∧
        parsedTransport P (asMap members) dialer = .ok t := by
  intro k
  induction k with
  | zero => exact fun _ => ⟨leaf, transport, rfl, hleaf⟩
  | succ k ih =>
    intro hdepth
    have hk := depth_nestEntry k (.obj leaf)
    have hk1 := depth_nestEntry (k + 1) (.obj leaf)
    obtain ⟨members, t, hm, ht⟩ := ih (by omega)
    refine ⟨[("name", .str "Optimizer"),
      ("config", optimizerDoc [nestEntry k (.obj leaf)] "first")], ?_, rfl, ?_⟩
    · exact .optimizer (Optimizer.NewOptimizerClient [t] (Optimizer.NewFirstStrategy [t]))
    · rw [hm] at hk ⊢
      have hdoc : (optimizerDoc [.obj members] "first").depth ≤ maxNestingDepth := by
        rw [depth_optimizerDoc]
        simp only [depthList, Nat.max_zero]
        omega
      have hrun := (ParseArgsOptimizer_single_entry P dialer members t ht hdoc).2
      have hentry : (JSON.obj (asMap [("name", .str "Optimizer"),
          ("config", optimizerDoc [.obj members] "first")])).depth ≤ maxNestingDepth := by
        have h1 : asMap [("name", JSON.str "Optimizer"),
            ("config", optimizerDoc [.obj members] "first")] =
            [("config", optimizerDoc [.obj members] "first"), ("name", .str "Optimizer")] := rfl
        rw [h1]
        have h2 : (JSON.obj [("config", optimizerDoc [.obj members] "first"),
            ("name", .str "Optimizer")]).depth =
            (optimizerDoc [.obj members] "first").depth + 1 := by
          simp [JSON.depth, depthMembers]
        rw [h2, depth_optimizerDoc]
        simp only [depthList, Nat.max_zero]
        omega
      have hname : unmarshalPartialOptimizerConfig
          (jsonMarshal (asMap [("name", .str "Optimizer"),
            ("config", optimizerDoc [.obj members] "first")])) = some ⟨"Optimizer"⟩ := by
        unfold jsonMarshal
        rw [unmarshalPartialOptimizerConfig_of_le hentry]
        rfl
      have hd := parsedTransport_dispatch P
        (asMap [("name", .str "Optimizer"),
          ("config", optimizerDoc [.obj members] "first")]) dialer ⟨"Optimizer"⟩
        [("transports", .arr [.obj members]), ("strategy", .str "first")] hname rfl
      rw [hd, hrun]
      rfl

/-! ## Claims -/

/-- C1: when the configuration decodes and every transport entry resolves,
`ParseArgsOptimizer` returns a client exactly when the strategy string is one of
`first`, `random`, `rotate`, `track`, `minimizeDialDuration` (compared
case-sensitively), and for every other string, the empty one included, it
returns the error `could not parse strategy` and no client. -/
theorem ParseArgsOptimizer_strategy {D RC SC : Type} (P : Providers RC SC)
    (jsonConfig : JSONText) (dialer : D) (config : OptimizerConfig)
    (transports : List (TransportDialer D RC SC))
    (hcfg : unmarshalOptimizerConfig jsonConfig = some config)
    (hts : parseTransports P config.Transports dialer = .ok transports) :
    ((∃ client, ParseArgsOptimizer P jsonConfig dialer = .ok client) ↔
        config.Strategy ∈ ["first", "random", "rotate", "track", "minimizeDialDuration"]) ∧
      (config.Strategy ∉ ["first", "random", "rotate", "track", "minimizeDialDuration"] →
        ParseArgsOptimizer P jsonConfig dialer = .error (.New "could not parse strategy")) := by
  have hrun := ParseArgsOptimizer_of_transports P jsonConfig dialer config transports hcfg hts
  have hbad : config.Strategy ∉ ["first", "random", "rotate", "track", "minimizeDialDuration"] →
      ParseArgsOptimizer P jsonConfig dialer = .error (.New "could not parse strategy") := by
    intro hn
    rw [hrun, parseStrategy_error_of_not_mem _ _ hn]
  refine ⟨⟨?_, ?_⟩, hbad⟩
  · rintro ⟨client, hc⟩
    by_contra hn
    rw [hbad hn] at hc
    cases hc
  · intro hm
    obtain ⟨strategy, hs, _⟩ := parseStrategy_ok_of_mem config.Strategy transports hm
    exact ⟨_, by rw [hrun, hs]⟩

/-- C1, on concrete documents: an unknown strategy, an absent strategy and a
strategy differing in case only are rejected. -/
theorem ParseArgsOptimizer_strategy_witness :
    ParseArgsOptimizer exampleProviders (.doc (optimizerDoc [shadowEntry] "bogus")) (0 : Nat) =
        .error (.New "could not parse strategy") ∧
      ParseArgsOptimizer exampleProviders (.doc (.obj [("transports", .arr [shadowEntry])]))
        (0 : Nat) = .error (.New "could not parse strategy") ∧
      ParseArgsOptimizer exampleProviders (.doc (optimizerDoc [shadowEntry] "First")) (0 : Nat) =
        .error (.New "could not parse strategy") :=
  ⟨(ParseArgsOptimizer_strategy exampleProviders (.doc (optimizerDoc [shadowEntry] "bogus"))
      (0 : Nat) ⟨[shadowEntry], "bogus"⟩ [exampleShadow] rfl rfl).2 (by decide),
    (ParseArgsOptimizer_strategy exampleProviders
      (.doc (.obj [("transports", .arr [shadowEntry])]))
      (0 : Nat) ⟨[shadowEntry], ""⟩ [exampleShadow] rfl rfl).2 (by decide),
    (ParseArgsOptimizer_strategy exampleProviders (.doc (optimizerDoc [shadowEntry] "First"))
      (0 : Nat) ⟨[shadowEntry], "First"⟩ [exampleShadow] rfl rfl).2 (by decide)⟩

/-- C2: a transport list holding, at any position, an object entry whose decoded
name is not one of `Transports()` (an absent name and a name field that does not
decode included) makes `parseTransports` return an error and no dialer list,
whatever the entries before and after it are, and makes `ParseArgsOptimizer`
return the error `could not parse transports` and no client on every
configuration whose transport list it is. -/
theorem parseTransports_unregistered {D RC SC : Type} (P : Providers RC SC)
    (before after : List JSON) (members : List (String × JSON)) (dialer : D)
    (hname : ∀ pc, unmarshalPartialOptimizerConfig (jsonMarshal (asMap members)) = some pc →
      pc.Name ∉ Transports) :
    (∃ text, parseTransports P (before ++ .obj members :: after) dialer = .error (.New text)) ∧
      ∀ (jsonConfig : JSONText) (config : OptimizerConfig),
        unmarshalOptimizerConfig jsonConfig = some config →
        config.Transports = before ++ .obj members :: after →
        ParseArgsOptimizer P jsonConfig dialer = .error (.New "could not parse transports") := by
  obtain ⟨text, ht⟩ := parsedTransport_error_of_unregistered P (asMap members) dialer hname
  obtain ⟨text', ht'⟩ := parseTransports_error_of_entry P before after members dialer _ ht
  refine ⟨⟨text', ht'⟩, ?_⟩
  intro jsonConfig config hcfg hlist
  exact ParseArgsOptimizer_of_transports_error P jsonConfig dialer config (.New text') hcfg
    (by rw [hlist]; exact ht')

/-- C2, on a concrete list: an entry named `bogus` between a Shadow entry that
resolves and a number. -/
theorem parseTransports_unregistered_witness :
    (∃ text, parseTransports exampleProviders
        ([shadowEntry] ++ .obj [("name", .str "bogus"), ("config", .obj [])] :: [.num 1])
        (0 : Nat) = .error (.New text)) ∧
      ParseArgsOptimizer exampleProviders
        (.doc (optimizerDoc [shadowEntry, entry "bogus" (.obj []), .num 1] "first")) (0 : Nat) =
        .error (.New "could not parse transports") :=
  have h := parseTransports_unregistered exampleProviders [shadowEntry] [.num 1]
    [("name", .str "bogus"), ("config", .obj [])] (0 : Nat)
    (fun pc hpc => by
      have h0 : unmarshalPartialOptimizerConfig
          (jsonMarshal (asMap [("name", .str "bogus"), ("config", .obj [])])) =
          some ⟨"bogus"⟩ := rfl
      rw [h0] at hpc
      cases hpc
      decide)
  ⟨h.1, h.2 (.doc (optimizerDoc [shadowEntry, entry "bogus" (.obj []), .num 1] "first"))
    ⟨[shadowEntry, entry "bogus" (.obj []), .num 1], "first"⟩ rfl rfl⟩

/-- C3: when `parseTransports` succeeds, the returned list is as long as the
input list and, at every index, the input entry is an object and the returned
element is the dialer `parsedTransport` builds from that entry; the slice the
indexed loop of the source fills, starting from `len(otcs)` nil elements, is
that list. -/
theorem parseTransports_ok_elements {D RC SC : Type} (P : Providers RC SC)
    (otcs : List JSON) (dialer : D) (transports : List (TransportDialer D RC SC))
    (h : parseTransports P otcs dialer = .ok transports) :
    transports.length = otcs.length ∧
      (∀ i, i < otcs.length → ∃ members transport,
        otcs[i]? = some (.obj members) ∧ transports[i]? = some transport ∧
        parsedTransport P (asMap members) dialer = .ok transport) ∧
      parseTransportsLoop P (ParseArgsOptimizer P) dialer 0 otcs
        (List.replicate otcs.length none) = .ok (transports.map some) := by
  have hindex := parseTransports_ok_index P otcs dialer transports h
  have hloop := parseTransportsLoop_eq P (ParseArgsOptimizer P) dialer otcs []
  rw [parseTransports] at h
  rw [h] at hloop
  exact ⟨hindex.1, hindex.2, by simpa using hloop⟩

/-- C3, on a concrete list of two entries. -/
theorem parseTransports_ok_elements_witness :
    parseTransports exampleProviders [shadowEntry, starbridgeEntry] (3 : Nat) =
        .ok [exampleShadow, exampleStarbridge 3] ∧
      [exampleShadow, exampleStarbridge 3].length = [shadowEntry, starbridgeEntry].length ∧
      ∃ members transport,
        [shadowEntry, starbridgeEntry][1]? = some (.obj members) ∧
        [exampleShadow, exampleStarbridge 3][1]? = some transport ∧
        parsedTransport exampleProviders (asMap members) (3 : Nat) = .ok transport :=
  have h := parseTransports_ok_elements exampleProviders [shadowEntry, starbridgeEntry] (3 : Nat)
    [exampleShadow, exampleStarbridge 3] rfl
  ⟨rfl, h.1, h.2.1 1 (by decide)⟩

/-- C4: for an entry whose name decodes to `Optimizer` and whose `config` is an
object, `parsedTransport` succeeds exactly when `ParseArgsOptimizer` succeeds on
the re-serialised config with the same dialer; on success the dialer returned is
that nested client, and `parseTransports` stores it at the position of the entry
among the dialers of the other entries. -/
theorem parsedTransport_Optimizer {D RC SC : Type} (P : Providers RC SC)
    (otc : List (String × JSON)) (dialer : D) (pc : PartialOptimizerConfig)
    (cfgMembers : List (String × JSON))
    (hname : unmarshalPartialOptimizerConfig (jsonMarshal otc) = some pc)
    (hopt : pc.Name = "Optimizer")
    (hcfg : mapLookup "config" otc = some (.obj cfgMembers)) :
    ((∃ transport, parsedTransport P otc dialer = .ok transport) ↔
        ∃ client, ParseArgsOptimizer P (jsonMarshal (asMap cfgMembers)) dialer = .ok client) ∧
      (∀ client, ParseArgsOptimizer P (jsonMarshal (asMap cfgMembers)) dialer = .ok client →
        parsedTransport P otc dialer = .ok (.optimizer client) ∧
        ∀ (before after : List JSON) (members : List (String × JSON))
          (bs as : List (TransportDialer D RC SC)),
          asMap members = otc →
          parseTransports P before dialer = .ok bs →
          parseTransports P after dialer = .ok as →
          parseTransports P (before ++ .obj members :: after) dialer =
            .ok (bs ++ .optimizer client :: as)) := by
  have hd := parsedTransport_dispatch P otc dialer pc cfgMembers hname hcfg
  rw [hopt] at hd
  simp only [show ¬ ("Optimizer" = "shadow") by decide, show ¬ ("Optimizer" = "Replicant") by decide,
    show ¬ ("Optimizer" = "Starbridge") by decide, if_false, if_true] at hd
  have hok : ∀ client, ParseArgsOptimizer P (jsonMarshal (asMap cfgMembers)) dialer = .ok client →
      parsedTransport P otc dialer = .ok (.optimizer client) := by
    intro client hc
    rw [hd, hc]
  refine ⟨⟨?_, ?_⟩, ?_⟩
  · rintro ⟨transport, ht⟩
    cases hc : ParseArgsOptimizer P (jsonMarshal (asMap cfgMembers)) dialer with
    | error e =>
      rw [hd, hc] at ht
      cases ht
    | ok client => exact ⟨client, rfl⟩
  · rintro ⟨client, hc⟩
    exact ⟨_, hok client hc⟩
  · intro client hc
    refine ⟨hok client hc, ?_⟩
    intro before after members bs as hm hb ha
    rw [parseTransports_append_ok P before _ dialer bs hb,
      parseTransports_cons_ok P members after dialer (.optimizer client) (by rw [hm]; exact hok client hc),
      ha]

/-- C4, on a concrete entry: a nested client over one Shadow entry. -/
theorem parsedTransport_Optimizer_witness :
    parsedTransport exampleProviders
        (asMap [("name", .str "Optimizer"), ("config", optimizerDoc [shadowEntry] "first")])
        (0 : Nat) = .ok (.optimizer exampleShadowClient) :=
  ((parsedTransport_Optimizer exampleProviders
    (asMap [("name", .str "Optimizer"), ("config", optimizerDoc [shadowEntry] "first")])
    (0 : Nat) ⟨"Optimizer"⟩ [("transports", .arr [shadowEntry]), ("strategy", .str "first")]
    rfl rfl rfl).2 exampleShadowClient rfl).1

/-- C5 (as amended): in every client `ParseArgsOptimizer` returns, each leaf
transport, at every nesting depth, is a Replicant or Starbridge transport whose
`Dialer` is the dialer the top-level call received, or a Shadow transport;
`ParseArgsShadow` takes no dialer, so a Shadow transport holds none. -/
theorem ParseArgsOptimizer_dialer {D RC SC : Type} (P : Providers RC SC)
    (jsonConfig : JSONText) (dialer : D) (client : Client (TransportDialer D RC SC))
    (h : ParseArgsOptimizer P jsonConfig dialer = .ok client) :
    ∀ l ∈ clientLeaves client,
      (∃ s, l = .shadow s ∧ l.dialerField = none) ∨
      (∃ r, l = .replicant r ∧ r.Dialer = dialer) ∨
      (∃ s, l = .starbridge s ∧ s.Dialer = dialer) := by
  intro l hl
  rcases ParseArgsOptimizerFuel_leaves P dialer _ jsonConfig client h l hl with
    ⟨s, hs⟩ | h2 | h3
  · exact Or.inl ⟨s, hs, by rw [hs]; rfl⟩
  · exact Or.inr (Or.inl h2)
  · exact Or.inr (Or.inr h3)

/-- C5 (as amended), on a concrete document: the Starbridge transport inside the
nested client holds the dialer of the top-level call. -/
theorem ParseArgsOptimizer_dialer_witness :
    ParseArgsOptimizer exampleProviders exampleNestedDoc (5 : Nat) = .ok (exampleNestedClient 5) ∧
      ((∃ s, exampleStarbridge 5 = .shadow s ∧ (exampleStarbridge 5).dialerField = none) ∨
        (∃ r, exampleStarbridge 5 = .replicant r ∧ r.Dialer = 5) ∨
        (∃ s, exampleStarbridge 5 = .starbridge s ∧ s.Dialer = 5)) :=
  ⟨rfl, ParseArgsOptimizer_dialer exampleProviders exampleNestedDoc (5 : Nat)
    (exampleNestedClient 5) rfl (exampleStarbridge 5)
    (List.mem_cons_of_mem _ (List.mem_cons_self _ _))⟩

/-- C5 (as stated) fails: resolving a Shadow entry with dialer `7` and with
dialer `8` gives the same client, and its leaf, a Shadow transport, holds no
dialer. -/
theorem ParseArgsOptimizer_dialer_shadow :
    ParseArgsOptimizer exampleProviders (.doc (optimizerDoc [shadowEntry] "first")) (7 : Nat) =
        .ok exampleShadowClient ∧
      ParseArgsOptimizer exampleProviders (.doc (optimizerDoc [shadowEntry] "first")) (8 : Nat) =
        .ok exampleShadowClient ∧
      exampleShadow ∈ clientLeaves exampleShadowClient ∧
      exampleShadow.dialerField ≠ some 7 :=
  ⟨rfl, rfl, List.mem_cons_self _ _, fun h => by cases h⟩

/-- C6 (as amended): when the constructor of the provider an entry names fails,
`parsedTransport` returns the fixed message of that provider (`could not parse
shadow Args`, `could not parse replicant Args`, `could not parse starbridge
Args`, `could not parse Optimizer Args`) whatever the cause was, so the cause is
not carried; and whenever `parsedTransport` fails on an entry of a transport
list, `parseTransports` returns an error and no dialer list and
`ParseArgsOptimizer` above it returns an error and no client. -/
theorem parsedTransport_provider_failure {D RC SC : Type} (P : Providers RC SC)
    (otc : List (String × JSON)) (dialer : D) (pc : PartialOptimizerConfig)
    (cfgMembers : List (String × JSON))
    (hname : unmarshalPartialOptimizerConfig (jsonMarshal otc) = some pc)
    (hcfg : mapLookup "config" otc = some (.obj cfgMembers)) :
    (pc.Name = "shadow" → ∀ cause,
        ParseArgsShadow P (jsonMarshal (asMap cfgMembers)) = .error cause →
        parsedTransport P otc dialer = .error (.New "could not parse shadow Args")) ∧
      (pc.Name = "Replicant" → ∀ cause,
        ParseArgsReplicantClient P (jsonMarshal (asMap cfgMembers)) dialer = .error cause →
        parsedTransport P otc dialer = .error (.New "could not parse replicant Args")) ∧
      (pc.Name = "Starbridge" → ∀ cause,
        ParseArgsStarbridgeClient P (jsonMarshal (asMap cfgMembers)) dialer = .error cause →
        parsedTransport P otc dialer = .error (.New "could not parse starbridge Args")) ∧
      (pc.Name = "Optimizer" → ∀ cause,
        ParseArgsOptimizer P (jsonMarshal (asMap cfgMembers)) dialer = .error cause →
        parsedTransport P otc dialer = .error (.New "could not parse Optimizer Args")) ∧
      (∀ cause, parsedTransport P otc dialer = .error cause →
        ∀ (before after : List JSON) (members : List (String × JSON)), asMap members = otc →
          (∃ text, parseTransports P (before ++ .obj members :: after) dialer =
            .error (.New text)) ∧
          ∀ (jsonConfig : JSONText) (config : OptimizerConfig),
            unmarshalOptimizerConfig jsonConfig = some config →
            config.Transports = before ++ .obj members :: after →
            ∃ text, ParseArgsOptimizer P jsonConfig dialer = .error (.New text)) := by
  have hd := parsedTransport_dispatch P otc dialer pc cfgMembers hname hcfg
  refine ⟨?_, ?_, ?_, ?_, ?_⟩
  · intro hn cause hc
    rw [hd, hn, if_pos rfl, hc]
  · intro hn cause hc
    rw [hd, hn, if_neg (by decide), if_pos rfl, hc]
  · intro hn cause hc
    rw [hd, hn, if_neg (by decide), if_neg (by decide), if_pos rfl, hc]
  · intro hn cause hc
    rw [hd, hn, if_neg (by decide), if_neg (by decide), if_neg (by decide), if_pos rfl, hc]
  · intro cause hfail before after members hm
    obtain ⟨text, ht⟩ := parseTransports_error_of_entry P before after members dialer cause
      (by rw [hm]; exact hfail)
    refine ⟨⟨text, ht⟩, ?_⟩
    intro jsonConfig config hc hlist
    exact ⟨_, ParseArgsOptimizer_of_transports_error P jsonConfig dialer config (.New text) hc
      (by rw [hlist]; exact ht)⟩

/-- C6 (as stated) fails: a nested Optimizer that fails on its strategy, a nested
Optimizer that fails on its transports and a Replicant client whose arguments do
not decode are three failures with different providers or causes, and
`parseTransports` and `ParseArgsOptimizer` return the same error for all three,
naming neither the provider nor the cause. -/
theorem provider_failures_indistinguishable :
    (ParseArgsOptimizer exampleProviders
        (jsonMarshal (asMap [("transports", .arr []), ("strategy", .str "bogus")])) (0 : Nat) =
          .error (.New "could not parse strategy") ∧
      ParseArgsOptimizer exampleProviders
        (jsonMarshal (asMap [("transports", .arr [.num 1]), ("strategy", .str "first")])) (0 : Nat) =
          .error (.New "could not parse transports") ∧
      ParseArgsReplicantClient exampleProviders
        (jsonMarshal (asMap [("config", .num 5)])) (0 : Nat) =
          .error (.New "could not unmarshal Replicant args")) ∧
    (parseTransports exampleProviders [entry "Optimizer" (optimizerDoc [] "bogus")] (0 : Nat) =
        .error (.New "transport could not parse config") ∧
      parseTransports exampleProviders [entry "Optimizer" (optimizerDoc [.num 1] "first")] (0 : Nat) =
        .error (.New "transport could not parse config") ∧
      parseTransports exampleProviders [entry "Replicant" (.obj [("config", .num 5)])] (0 : Nat) =
        .error (.New "transport could not parse config")) ∧
    (ParseArgsOptimizer exampleProviders
        (.doc (optimizerDoc [entry "Optimizer" (optimizerDoc [] "bogus")] "first")) (0 : Nat) =
          .error (.New "could not parse transports") ∧
      ParseArgsOptimizer exampleProviders
        (.doc (optimizerDoc [entry "Optimizer" (optimizerDoc [.num 1] "first")] "first")) (0 : Nat) =
          .error (.New "could not parse transports") ∧
      ParseArgsOptimizer exampleProviders
        (.doc (optimizerDoc [entry "Replicant" (.obj [("config", .num 5)])] "first")) (0 : Nat) =
          .error (.New "could not parse transports")) :=
  ⟨⟨rfl, rfl, rfl⟩, ⟨rfl, rfl, rfl⟩, ⟨rfl, rfl, rfl⟩⟩

/-- C6 (as amended), on a concrete entry: a Replicant client whose arguments do
not decode. -/
theorem parsedTransport_provider_failure_witness :
    parsedTransport exampleProviders
        (asMap [("name", .str "Replicant"), ("config", .obj [("config", .num 5)])]) (0 : Nat) =
      .error (.New "could not parse replicant Args") :=
  (parsedTransport_provider_failure exampleProviders
    (asMap [("name", .str "Replicant"), ("config", .obj [("config", .num 5)])]) (0 : Nat)
    ⟨"Replicant"⟩ [("config", .num 5)] rfl rfl).2.1 rfl
    (.New "could not unmarshal Replicant args") rfl

/-- C7 (as amended): per-entry checks run in the order name field decodes,
config present, config an object, name registered.  An entry whose name field
does not decode fails with `error unmarshalling optimizer otc`.  Otherwise,
without a `config` member the error is `missing config in transport parser` and
with a `config` that is not an object it is `unsupported type for optimizer
config option`, whatever the name, registered or not; the error `unsupported
transport name` is returned for an absent or unregistered name when `config` is
an object. -/
theorem parsedTransport_check_order {D RC SC : Type} (P : Providers RC SC)
    (otc : List (String × JSON)) (dialer : D) :
    (unmarshalPartialOptimizerConfig (jsonMarshal otc) = none →
        parsedTransport P otc dialer = .error (.New "error unmarshalling optimizer otc")) ∧
      ∀ pc, unmarshalPartialOptimizerConfig (jsonMarshal otc) = some pc →
        (mapLookup "config" otc = none →
          parsedTransport P otc dialer = .error (.New "missing config in transport parser")) ∧
        (∀ v, mapLookup "config" otc = some v → (∀ cfgMembers, v ≠ .obj cfgMembers) →
          parsedTransport P otc dialer =
            .error (.New "unsupported type for optimizer config option")) ∧
        (∀ cfgMembers, mapLookup "config" otc = some (.obj cfgMembers) →
          pc.Name ∉ Transports →
          parsedTransport P otc dialer = .error (.New "unsupported transport name")) :=
  ⟨parsedTransport_name_undecodable P otc dialer, fun pc hname =>
    ⟨parsedTransport_missing_config P otc dialer pc hname,
      fun v hcfg hv => parsedTransport_config_not_object P otc dialer pc v hname hcfg hv,
      fun cfgMembers hcfg hn =>
        parsedTransport_unsupported_name P otc dialer pc cfgMembers hname hcfg hn⟩⟩

/-- C7 (as stated) fails: the entry `{"name": "bogus"}` has an unregistered name
and no config, and `parsedTransport` reports the missing config, not the
unknown name. -/
theorem parsedTransport_missing_config_first :
    parsedTransport exampleProviders (asMap [("name", .str "bogus")]) (0 : Nat) =
        .error (.New "missing config in transport parser") ∧
      "bogus" ∉ Transports :=
  ⟨rfl, by decide⟩

/-- C7 (as amended), on concrete entries with the unregistered name `nope`: a
config that is a number, a config that is an object, and a registered name
without config. -/
theorem parsedTransport_check_order_witness :
    parsedTransport exampleProviders (asMap [("config", .num 3), ("name", .str "nope")])
        (0 : Nat) = .error (.New "unsupported type for optimizer config option") ∧
      parsedTransport exampleProviders (asMap [("config", .obj []), ("name", .str "nope")])
        (0 : Nat) = .error (.New "unsupported transport name") ∧
      parsedTransport exampleProviders (asMap [("name", .str "shadow")]) (0 : Nat) =
        .error (.New "missing config in transport parser") ∧
      parsedTransport exampleProviders (asMap [("name", .num 1)]) (0 : Nat) =
        .error (.New "error unmarshalling optimizer otc") :=
  ⟨((parsedTransport_check_order exampleProviders
      (asMap [("config", .num 3), ("name", .str "nope")]) (0 : Nat)).2 ⟨"nope"⟩ rfl).2.1
      (.num 3) rfl (fun _ h => by cases h),
    ((parsedTransport_check_order exampleProviders
      (asMap [("config", .obj []), ("name", .str "nope")]) (0 : Nat)).2 ⟨"nope"⟩ rfl).2.2
      [] rfl (by decide),
    ((parsedTransport_check_order exampleProviders
      (asMap [("name", .str "shadow")]) (0 : Nat)).2 ⟨"shadow"⟩ rfl).1 rfl,
    (parsedTransport_check_order exampleProviders
      (asMap [("name", .num 1)]) (0 : Nat)).1 rfl⟩

/-- C8: `ParseArgsOptimizer` accepts a configuration without transports: when
the decoded transport list is empty (an empty array, `null`, or no `transports`
member) and the strategy is one of the five names, it returns no error and a
client whose transport list and strategy hold no dialer. -/
theorem ParseArgsOptimizer_no_transports {D RC SC : Type} (P : Providers RC SC)
    (jsonConfig : JSONText) (dialer : D) (config : OptimizerConfig)
    (hcfg : unmarshalOptimizerConfig jsonConfig = some config)
    (hempty : config.Transports = [])
    (hs : config.Strategy ∈ ["first", "random", "rotate", "track", "minimizeDialDuration"]) :
    ∃ strategy : Strategy (TransportDialer D RC SC),
      parseStrategy config.Strategy [] = .ok strategy ∧ strategy.transports = [] ∧
      ParseArgsOptimizer P jsonConfig dialer = .ok (Optimizer.NewOptimizerClient [] strategy) := by
  obtain ⟨strategy, hst, htr⟩ :=
    parseStrategy_ok_of_mem config.Strategy ([] : List (TransportDialer D RC SC)) hs
  refine ⟨strategy, hst, htr, ?_⟩
  rw [ParseArgsOptimizer_of_transports P jsonConfig dialer config [] hcfg
    (by rw [hempty]; rfl), hst]

/-- C8, on concrete documents: an empty `transports` array, and no `transports`
member at all. -/
theorem ParseArgsOptimizer_no_transports_witness :
    (∃ strategy : Strategy (TransportDialer Nat String String),
      parseStrategy "rotate" [] = .ok strategy ∧ strategy.transports = [] ∧
      ParseArgsOptimizer exampleProviders (.doc (optimizerDoc [] "rotate")) (0 : Nat) =
        .ok (Optimizer.NewOptimizerClient [] strategy)) ∧
    (∃ strategy : Strategy (TransportDialer Nat String String),
      parseStrategy "track" [] = .ok strategy ∧ strategy.transports = [] ∧
      ParseArgsOptimizer exampleProviders (.doc (.obj [("strategy", .str "track")])) (0 : Nat) =
        .ok (Optimizer.NewOptimizerClient [] strategy)) :=
  ⟨ParseArgsOptimizer_no_transports exampleProviders (.doc (optimizerDoc [] "rotate")) 0
      ⟨[], "rotate"⟩ rfl rfl (by decide),
    ParseArgsOptimizer_no_transports exampleProviders (.doc (.obj [("strategy", .str "track")])) 0
      ⟨[], "track"⟩ rfl rfl (by decide)⟩

/-- C9: `Transports()` is `["shadow", "Replicant", "Starbridge", "Optimizer"]`,
without duplicates, and it is the set of names `parsedTransport` dispatches on:
for an entry whose name decodes and whose `config` is an object, the error
`unsupported transport name` is returned exactly when the name is not an element
of `Transports()`.  The comparison is case-sensitive. -/
theorem Transports_registry {D RC SC : Type} (P : Providers RC SC)
    (otc : List (String × JSON)) (dialer : D) (pc : PartialOptimizerConfig)
    (cfgMembers : List (String × JSON))
    (hname : unmarshalPartialOptimizerConfig (jsonMarshal otc) = some pc)
    (hcfg : mapLookup "config" otc = some (.obj cfgMembers)) :
    (parsedTransport P otc dialer = .error (.New "unsupported transport name") ↔
        pc.Name ∉ Transports) ∧
      Transports = ["shadow", "Replicant", "Starbridge", "Optimizer"] ∧ Transports.Nodup ∧
      "Shadow" ∉ Transports ∧ "replicant" ∉ Transports ∧ "starbridge" ∉ Transports ∧
      "optimizer" ∉ Transports := by
  refine ⟨⟨?_, ?_⟩, rfl, by decide, by decide, by decide, by decide, by decide⟩
  · intro herr hmem
    rw [parsedTransport_dispatch P otc dialer pc cfgMembers hname hcfg] at herr
    simp only [Transports, List.mem_cons, List.mem_singleton, List.not_mem_nil, or_false] at hmem
    rcases hmem with h | h | h | h <;> rw [h] at herr <;>
      simp only [show ¬ ("Optimizer" = "shadow") by decide,
        show ¬ ("Optimizer" = "Replicant") by decide,
        show ¬ ("Optimizer" = "Starbridge") by decide,
        show ¬ ("Starbridge" = "shadow") by decide,
        show ¬ ("Starbridge" = "Replicant") by decide,
        show ¬ ("Replicant" = "shadow") by decide, if_false, if_true] at herr <;>
      split at herr <;> simp at herr
  · intro hn
    exact parsedTransport_unsupported_name P otc dialer pc cfgMembers hname hcfg hn

/-- C9, on concrete entries: the name `Shadow` is not registered, the name
`shadow` is. -/
theorem Transports_registry_witness :
    parsedTransport exampleProviders (asMap [("name", .str "Shadow"), ("config", .obj [])])
        (0 : Nat) = .error (.New "unsupported transport name") ∧
      parsedTransport exampleProviders (asMap [("name", .str "shadow"), ("config", .obj [])])
        (0 : Nat) ≠ .error (.New "unsupported transport name") :=
  ⟨(Transports_registry exampleProviders
      (asMap [("name", .str "Shadow"), ("config", .obj [])]) (0 : Nat) ⟨"Shadow"⟩ [] rfl rfl).1.2
      (by decide),
    fun h => (Transports_registry exampleProviders
      (asMap [("name", .str "shadow"), ("config", .obj [])]) (0 : Nat) ⟨"shadow"⟩ [] rfl rfl).1.1
      h (by decide)⟩

/-- C10 (as amended): the recursion of `ParseArgsOptimizer` through
`parseTransports` and `parsedTransport` terminates on every document.  Any
budget above the nesting depth of the document gives the same result, which is
never the exhaustion of the budget, and that result satisfies the recursive
equation of the source; the document of each recursive call, the re-serialised
`config` of a transport entry, is strictly shallower than the document of the
enclosing call.  A configuration with `Optimizer` entries nested `k` deep around
an entry that resolves has nesting depth `3 * k + 3` plus that of the entry's
members; it is accepted when this depth is at most `maxNestingDepth`, the limit
of `json.Unmarshal`, and refused with `could not marshal optimizer config` when
it is deeper. -/
theorem ParseArgsOptimizer_terminates {D RC SC : Type} (P : Providers RC SC)
    (jsonConfig : JSONText) (dialer : D) :
    (∀ fuel, jsonConfig.depth < fuel →
        ParseArgsOptimizerFuel P fuel jsonConfig dialer = ParseArgsOptimizer P jsonConfig dialer) ∧
      ParseArgsOptimizer P jsonConfig dialer ≠ .error .fuelExhausted ∧
      ParseArgsOptimizer P jsonConfig dialer =
        ParseArgsOptimizerWith P (ParseArgsOptimizer P) jsonConfig dialer ∧
      (∀ config members cfgMembers,
        unmarshalOptimizerConfig jsonConfig = some config →
        JSON.obj members ∈ config.Transports →
        mapLookup "config" (asMap members) = some (.obj cfgMembers) →
        (jsonMarshal (asMap cfgMembers)).depth < jsonConfig.depth) ∧
      (∀ (k : Nat) (leaf : List (String × JSON)) (transport : TransportDialer D RC SC),
        parsedTransport P (asMap leaf) dialer = .ok transport →
        (optimizerDoc [nestEntry k (.obj leaf)] "first").depth =
            3 * k + depthMembers leaf + 3 ∧
          ((optimizerDoc [nestEntry k (.obj leaf)] "first").depth ≤ maxNestingDepth →
            ∃ client, ParseArgsOptimizer P
              (.doc (optimizerDoc [nestEntry k (.obj leaf)] "first")) dialer = .ok client) ∧
          (maxNestingDepth < (optimizerDoc [nestEntry k (.obj leaf)] "first").depth →
            ParseArgsOptimizer P (.doc (optimizerDoc [nestEntry k (.obj leaf)] "first"))
              dialer = .error (.New "could not marshal optimizer config"))) := by
  refine ⟨?_, ParseArgsOptimizer_ne_exhausted P jsonConfig dialer,
    ParseArgsOptimizer_unfold P jsonConfig dialer, ?_, ?_⟩
  · intro fuel hfuel
    exact ParseArgsOptimizerFuel_stable P dialer fuel (jsonConfig.depth + 1) jsonConfig hfuel
      (Nat.lt_succ_self _)
  · intro config members cfgMembers hcfg hmem hlook
    have h1 := config_depth_lt hlook
    have h2 := depthMembers_asMap_le members
    have h3 := depth_le_depthList hmem
    have h4 := unmarshalOptimizerConfig_depth hcfg
    rw [JSON.depth] at h3
    omega
  · intro k leaf transport hleaf
    have hdoc := depth_optimizerDoc_nestEntry k (.obj leaf) "first"
    have hnest := depth_nestEntry k (.obj leaf)
    rw [JSON.depth] at hdoc hnest
    refine ⟨by omega, ?_, ?_⟩
    · intro hle
      obtain ⟨members, t, hm, ht⟩ :=
        nestEntry_resolves P dialer leaf transport hleaf k (by rw [hnest]; omega)
      rw [hm] at hle ⊢
      exact ⟨_, (ParseArgsOptimizer_single_entry P dialer members t ht hle).1⟩
    · intro hlt
      exact ParseArgsOptimizer_of_deep P _ dialer hlt

/-- C10 (as stated) fails: a Shadow entry that resolves, under 3333 nested
composite clients, makes a configuration of nesting depth 10003, and
`ParseArgsOptimizer` refuses it. -/
theorem ParseArgsOptimizer_nesting_limit :
    parsedTransport exampleProviders
        (asMap [("name", .str "shadow"),
          ("config", .obj [("password", .str "pw"), ("cipherName", .str "c"),
            ("address", .str "a")])]) (0 : Nat) = .ok exampleShadow ∧
      (optimizerDoc [nestEntry 3333 shadowEntry] "first").depth = 10003 ∧
      ParseArgsOptimizer exampleProviders
        (.doc (optimizerDoc [nestEntry 3333 shadowEntry] "first")) (0 : Nat) =
        .error (.New "could not marshal optimizer config") := by
  have hdepth : (optimizerDoc [nestEntry 3333 shadowEntry] "first").depth = 10003 := by
    rw [depth_optimizerDoc_nestEntry]
    rfl
  refine ⟨rfl, hdepth, ?_⟩
  exact ParseArgsOptimizer_of_deep exampleProviders _ (0 : Nat) (by rw [hdepth]; decide)

/-- C10 (as amended), on a concrete document: a Shadow entry under three nested
composite clients, of nesting depth 13, resolved with a budget of 14. -/
theorem ParseArgsOptimizer_terminates_witness :
    ParseArgsOptimizerFuel exampleProviders 14
        (.doc (optimizerDoc [nestEntry 3 shadowEntry] "first")) (0 : Nat) =
        ParseArgsOptimizer exampleProviders
          (.doc (optimizerDoc [nestEntry 3 shadowEntry] "first")) (0 : Nat) ∧
      (optimizerDoc [nestEntry 3 shadowEntry] "first").depth = 13 ∧
      ∃ client, ParseArgsOptimizer exampleProviders
        (.doc (optimizerDoc [nestEntry 3 shadowEntry] "first")) (0 : Nat) = .ok client :=
  have h := ParseArgsOptimizer_terminates exampleProviders
    (.doc (optimizerDoc [nestEntry 3 shadowEntry] "first")) (0 : Nat)
  have h5 := h.2.2.2.2 3
    [("name", .str "shadow"),
      ("config", .obj [("password", .str "pw"), ("cipherName", .str "c"),
        ("address", .str "a")])]
    exampleShadow rfl
  ⟨h.1 14 (by decide), h5.1, h5.2.1 (by decide)⟩

end transports
